import Mathlib

/-!
# Verification of the certificate-vendor `CertificateService`

Shallow embedding of
`source/packages/services/certificatevendor/src/certificates/certificates.service.ts`.

Each external collaborator call (AWS IoT registry, S3, SSM, ACM PCA, MQTT
data plane, asset-library registry) is modelled by an oracle function in an
`Env` structure returning `Except String α` — `.ok` for a successful call,
`.error m` for a call that raises an error whose `message` is `m`.  Every
operation of the service is translated into a function returning the list of
collaborator calls it performs (its `Effect` trace, in order, an effect being
recorded when the call is attempted) together with the operation's own
result (`Except String`, mirroring a thrown error's `message`).
-/

namespace CertVendor

/-! ## JavaScript string primitives used by the source -/

/-- `leads sub l`: `sub` is an initial run of `l` (character-wise). -/
def leads : List Char → List Char → Bool
  | [], _ => true
  | _ :: _, [] => false
  | a :: as, b :: bs => a == b && leads as bs

/-- `occursIn sub l`: `sub` occurs contiguously somewhere inside `l`.
This is the semantics of JavaScript `String.prototype.includes`. -/
def occursIn (sub : List Char) : List Char → Bool
  | [] => sub.isEmpty
  | b :: bs => leads sub (b :: bs) || occursIn sub bs

/-- JavaScript `s.includes(sub)`. -/
def jsIncludes (s sub : String) : Bool :=
  occursIn sub.data s.data

/-- Split a character list at every occurrence of `c`; returns the first
part and the list of remaining parts (JavaScript `String.prototype.split`
with a one-character separator). -/
def splitChar (c : Char) : List Char → List Char × List (List Char)
  | [] => ([], [])
  | x :: xs =>
    let r := splitChar c xs
    if x = c then ([], r.1 :: r.2) else (x :: r.1, r.2)

/-- JavaScript `s.split('/')[1]`: `none` models the `undefined` obtained
when the string has no `/`. -/
def jsSplit1 (s : String) : Option String :=
  match (splitChar '/' s.data).2 with
  | [] => none
  | t :: _ => some (String.mk t)

/-- JavaScript string interpolation of a possibly-`undefined` value. -/
def jsStr : Option String → String
  | none => "undefined"
  | some s => s

/-- Replace the first occurrence of `pat` in `l` by `repl`
(JavaScript `String.prototype.replace` with a string pattern). -/
def replaceFirstAux (pat repl : List Char) : List Char → List Char
  | [] => []
  | x :: xs =>
    if leads pat (x :: xs) then repl ++ (x :: xs).drop pat.length
    else x :: replaceFirstAux pat repl xs

/-- JavaScript `s.replace(pat, repl)` (first occurrence only). -/
def jsReplace (s pat repl : String) : String :=
  String.mk (replaceFirstAux pat.data repl.data s.data)

/-- JavaScript truthiness of a possibly-`undefined` string
(`undefined` and the empty string are falsy). -/
def optTruthy : Option String → Bool
  | none => false
  | some s => !(s == "")

/-! ## Data model -/

/-- The optional structured subject info of `ACMPCAParameters`
(`certificates.models.ts`: `CertInfo`). -/
structure CertInfo where
  country : Option String := none
  organization : Option String := none
  organizationalUnit : Option String := none
  stateName : Option String := none
  commonName : Option String := none
  deriving DecidableEq, Repr

/-- `ACMPCAParameters` of `certificates.models.ts`; `none` fields model
absent (`undefined`) properties. -/
structure ACMPCAParameters where
  awsiotCaAlias : Option String := none
  awsiotCaID : Option String := none
  acmpcaCaAlias : Option String := none
  acmpcaCaArn : Option String := none
  certInfo : Option CertInfo := none
  deriving DecidableEq, Repr

/-- `CertificateResponseModel`: the payload published back to the device.
`none` fields model absent (`undefined`) properties, which
`JSON.stringify` omits. -/
structure CertificateResponseModel where
  location : Option String := none
  certificate : Option String := none
  certificateId : Option String := none
  message : Option String := none
  deriving DecidableEq, Repr

/-- The injected configuration values of `CertificateService`'s
constructor. -/
structure Config where
  accountId : String
  region : String
  s3Bucket : String
  s3Prefix : String
  s3Suffix : String
  presignedUrlExpiresInSeconds : Nat
  mqttGetSuccessTopic : String
  mqttGetFailureTopic : String
  mqttAckSuccessTopic : String
  mqttAckFailureTopic : String
  thingGroupName : String
  caCertificateId : String
  useDefaultPolicy : Bool
  rotatedCertificatePolicy : String
  certificateExpiryDays : Nat
  deletePreviousCertificate : Bool
  acmpcaCaArn : String
  acmpcaEnabled : Bool
  acmpcaSigningAlgorithm : String

/-- One attempted collaborator call, with the arguments the source passes. -/
inductive Effect where
  | isWhitelisted (deviceId : String)
  | updateAssetStatus (deviceId : String)
  | headObject (bucket key : String)
  | getSignedUrl (operation bucket key : String) (expires : Nat)
  | publish (topic : String) (payload : CertificateResponseModel)
  | describeCACertificate (certificateId : String)
  | getParameter (name : String)
  | createCertificate (csr serviceKey serviceCertificate : String)
  | registerCertificate (caCertificatePem certificatePem : String)
  | attachThingPrincipal (principal thingName : String)
  | getEffectivePolicies (principal : String)
  | attachPolicy (target policyName : String)
  | removeThingFromThingGroup (thingName thingGroupName : String)
  | issueCertificate (csr caArn signingAlgorithm : String) (validityDays : Nat)
      (certInfo : Option CertInfo)
  | waitForCertificateIssued (caArn certificateArn : String)
  | listThingPrincipals (thingName : String)
  | detachThingPrincipal (thingName principal : String)
  | listPrincipalThings (principal : String)
  | listAttachedPolicies (target : String)
  | detachPolicy (target policyName : String)
  | updateCertificate (certificateId : Option String) (newStatus : String)
  | deleteCertificate (certificateId : Option String)
  deriving DecidableEq, Repr

/-- Does the call mutate registry/authority state?  Reads, the local pem
computation and the response-channel publish do not. -/
def Effect.isMutation : Effect → Bool
  | .isWhitelisted _ => false
  | .headObject _ _ => false
  | .getSignedUrl _ _ _ _ => false
  | .publish _ _ => false
  | .describeCACertificate _ => false
  | .getParameter _ => false
  | .createCertificate _ _ _ => false
  | .getEffectivePolicies _ => false
  | .waitForCertificateIssued _ _ => false
  | .listThingPrincipals _ => false
  | .listPrincipalThings _ => false
  | .listAttachedPolicies _ => false
  | _ => true

def Effect.isPublish : Effect → Bool
  | .publish _ _ => true
  | _ => false

/-- The collaborators' behaviour: what each call returns, as a function of
its arguments.  `processEnv` models `process.env`. -/
structure Env where
  isWhitelisted : String → Except String Bool
  updateAssetStatus : String → Except String Unit
  headObject : String → String → Except String (Option String)
  getSignedUrl : String → String → String → Nat → Except String String
  publish : String → CertificateResponseModel → Except String Unit
  describeCACertificate : String → Except String String
  getParameter : String → Except String String
  createCertificate : String → String → String → Except String String
  registerCertificate : String → String → Except String String
  attachThingPrincipal : String → String → Except String Unit
  getEffectivePolicies : String → Except String (List String)
  attachPolicy : String → String → Except String Unit
  removeThingFromThingGroup : String → String → Except String Unit
  issueCertificate : String → String → String → Nat → Option CertInfo →
      Except String String
  waitForCertificateIssued : String → String → Except String (String × String)
  listThingPrincipals : String → Except String (List String)
  detachThingPrincipal : String → String → Except String Unit
  listPrincipalThings : String → Except String (List String)
  listAttachedPolicies : String → Except String (List String)
  detachPolicy : String → String → Except String Unit
  updateCertificate : Option String → String → Except String Unit
  deleteCertificate : Option String → Except String Unit
  processEnv : String → Option String

/-- The certificate ARN the source interpolates for a certificate id:
`arn:aws:iot:${region}:${accountId}:cert/${certificateId}`. -/
def certArnOf (cfg : Config) (certificateId : String) : String :=
  "arn:aws:iot:" ++ cfg.region ++ ":" ++ cfg.accountId ++ ":cert/" ++ certificateId

/-! ## Previous-certificate cleanup (`removePreviousCertificate`) -/

/-- The skip tests at the top of `removePreviousCertificate`'s loop:
`principal.includes(certId)` (current certificate, never touched), else
`previousCertificateId && !principal.includes(previousCertificateId)`
(cleanup scoped to the named previous certificate). -/
def skipPrincipal (certId : String) (prev : Option String) (p : String) : Bool :=
  if jsIncludes p certId then true
  else
    match prev with
    | some pc => !(pc == "") && !(jsIncludes p pc)
    | none => false

/-- The `for (const policy of principalPolicies.policies)` detach loop
(errors propagate raw and abort the remaining iterations). -/
def detachPolicies (env : Env) (target : String) :
    List String → List Effect × Except String Unit
  | [] => ([], .ok ())
  | pn :: rest =>
    match env.detachPolicy target pn with
    | .ok _ =>
      let r := detachPolicies env target rest
      (.detachPolicy target pn :: r.1, r.2)
    | .error e => ([.detachPolicy target pn], .error e)

/-- `const certificateId = principal.split('/')[1]` of the cleanup loop. -/
def cleanupCid (p : String) : Option String := jsSplit1 p

/-- The interpolated `target` ARN of the cleanup loop. -/
def cleanupTarget (cfg : Config) (p : String) : String :=
  certArnOf cfg (jsStr (jsSplit1 p))

/-- The body of `if (principalThings.things.length === 0) { ... }`:
detach every attached policy, set the certificate `INACTIVE`, delete it. -/
def deleteOrphanedCert (cfg : Config) (env : Env) (p : String) :
    List Effect × Except String Unit :=
  match env.listAttachedPolicies (cleanupTarget cfg p) with
  | .error e => ([.listAttachedPolicies (cleanupTarget cfg p)], .error e)
  | .ok pols =>
    match detachPolicies env (cleanupTarget cfg p) pols with
    | (tr, .error e) => (.listAttachedPolicies (cleanupTarget cfg p) :: tr, .error e)
    | (tr, .ok _) =>
      match env.updateCertificate (cleanupCid p) "INACTIVE" with
      | .error e =>
        (.listAttachedPolicies (cleanupTarget cfg p) :: tr ++
           [.updateCertificate (cleanupCid p) "INACTIVE"],
         .error e)
      | .ok _ =>
        match env.deleteCertificate (cleanupCid p) with
        | .error e =>
          (.listAttachedPolicies (cleanupTarget cfg p) :: tr ++
             [.updateCertificate (cleanupCid p) "INACTIVE",
              .deleteCertificate (cleanupCid p)],
           .error e)
        | .ok _ =>
          (.listAttachedPolicies (cleanupTarget cfg p) :: tr ++
             [.updateCertificate (cleanupCid p) "INACTIVE",
              .deleteCertificate (cleanupCid p)],
           .ok ())

/-- The loop body for one non-skipped principal: detach it from the thing,
list the things still attached to it, and delete it when none remain. -/
def processPrincipal (cfg : Config) (env : Env) (deviceId p : String) :
    List Effect × Except String Unit :=
  match env.detachThingPrincipal deviceId p with
  | .error e => ([.detachThingPrincipal deviceId p], .error e)
  | .ok _ =>
    match env.listPrincipalThings p with
    | .error e => ([.detachThingPrincipal deviceId p, .listPrincipalThings p], .error e)
    | .ok things =>
      if things.length = 0 then
        (.detachThingPrincipal deviceId p :: .listPrincipalThings p ::
           (deleteOrphanedCert cfg env p).1,
         (deleteOrphanedCert cfg env p).2)
      else
        ([.detachThingPrincipal deviceId p, .listPrincipalThings p], .ok ())

/-- The `for (const principal of thingPrincipals.principals)` loop. -/
def processPrincipals (cfg : Config) (env : Env) (deviceId certId : String)
    (prev : Option String) : List String → List Effect × Except String Unit
  | [] => ([], .ok ())
  | p :: rest =>
    if skipPrincipal certId prev p then
      processPrincipals cfg env deviceId certId prev rest
    else
      match processPrincipal cfg env deviceId p with
      | (tr, .error e) => (tr, .error e)
      | (tr, .ok _) =>
        (tr ++ (processPrincipals cfg env deviceId certId prev rest).1,
         (processPrincipals cfg env deviceId certId prev rest).2)

/-- `removePreviousCertificate(deviceId, certId, previousCertificateId?)`. -/
def removePreviousCertificate (cfg : Config) (env : Env) (deviceId certId : String)
    (prev : Option String) : List Effect × Except String Unit :=
  match env.listThingPrincipals deviceId with
  | .error e => ([.listThingPrincipals deviceId], .error e)
  | .ok ps =>
    (.listThingPrincipals deviceId :: (processPrincipals cfg env deviceId certId prev ps).1,
     (processPrincipals cfg env deviceId certId prev ps).2)

/-! ## Certificate issuance and policy attachment -/

/-- `ow` validation failure messages (the exact wording of the generic
`ow.string.nonEmpty` messages is irrelevant to every claim; the two
alias/ID messages are the ones the source passes to `ow.string.message`). -/
def owEmptyDeviceId : String := "Expected string `deviceId` to not be empty, got ``"

def owEmptyString : String := "Expected string to not be empty, got ``"

def msgInvalidAwsiotAlias : String := "Invalid `awsiotCaAlias`."

def msgEitherAwsiot : String := "Either `awsiotCaAlias` or `awsiotCaId` must be provided"

def msgInvalidAcmpcaAlias : String := "Invalid `acmpcaCaAlias`."

def msgEitherAcmpca : String := "Either `acmpcaCaAlias` or `acmpcaCaArn` must be provided."

/-- The ACM PCA parameter resolution block at the top of `getWithCsr`'s
`acmpcaEnabled` branch: alias lookup through `process.env`, `ow`
validation, then fallback to the configured defaults for falsy values.
Returns `(acmCaArn, caCertID, certInfo)`. -/
def resolveAcmpcaParams (cfg : Config) (env : Env) (pp : Option ACMPCAParameters) :
    Except String (String × String × Option CertInfo) :=
  match pp with
  | none => .ok (cfg.acmpcaCaArn, cfg.caCertificateId, none)
  | some p =>
    let awsiotCaID : Option String :=
      if optTruthy p.awsiotCaAlias then
        env.processEnv ("CA_" ++ (jsStr p.awsiotCaAlias).toUpper)
      else p.awsiotCaID
    match awsiotCaID with
    | none =>
      .error (if optTruthy p.awsiotCaAlias then msgInvalidAwsiotAlias else msgEitherAwsiot)
    | some iotId =>
      let acmpcaArn : Option String :=
        if optTruthy p.acmpcaCaAlias then
          env.processEnv ("PCA_" ++ (jsStr p.acmpcaCaAlias).toUpper)
        else p.acmpcaCaArn
      match acmpcaArn with
      | none =>
        .error (if optTruthy p.acmpcaCaAlias then msgInvalidAcmpcaAlias else msgEitherAcmpca)
      | some arn =>
        .ok (if arn == "" then cfg.acmpcaCaArn else arn,
             if iotId == "" then cfg.caCertificateId else iotId,
             p.certInfo)

/-- `getACMCertificate(csr, caArn, certInfo?)`: submit the issuance, poll
to completion (`UNABLE_TO_ISSUE_CERTIFICATE` on failure), then concatenate
leaf and chain: `` `${cert.Certificate}\n${cert.CertificateChain}` ``. -/
def getACMCertificate (cfg : Config) (env : Env) (csr caArn : String)
    (certInfo : Option CertInfo) : List Effect × Except String String :=
  let issueEff := Effect.issueCertificate csr caArn cfg.acmpcaSigningAlgorithm
      cfg.certificateExpiryDays certInfo
  match env.issueCertificate csr caArn cfg.acmpcaSigningAlgorithm
      cfg.certificateExpiryDays certInfo with
  | .error e => ([issueEff], .error e)
  | .ok certificateArn =>
    match env.waitForCertificateIssued caArn certificateArn with
    | .error _ =>
      ([issueEff, .waitForCertificateIssued caArn certificateArn],
       .error "UNABLE_TO_ISSUE_CERTIFICATE")
    | .ok (leaf, chain) =>
      ([issueEff, .waitForCertificateIssued caArn certificateArn],
       .ok (leaf ++ "\n" ++ chain))

/-- `getCaCertificate` (`describeCACertificate`, wrapped error) followed by
the CA-specific issuance: `getACMCertificate` when `acmpcaEnabled`, else
`getSSMCertificate` (`getCAKey` + `pem.createCertificate`).  Returns
`(caPem, certificate)`. -/
def obtainCertificate (cfg : Config) (env : Env) (csr : String)
    (pp : Option ACMPCAParameters) : List Effect × Except String (String × String) :=
  if cfg.acmpcaEnabled then
    match resolveAcmpcaParams cfg env pp with
    | .error e => ([], .error e)
    | .ok (acmCaArn, caCertID, certInfo) =>
      match env.describeCACertificate caCertID with
      | .error _ =>
        ([.describeCACertificate caCertID], .error "UNABLE_TO_GET_CA_CERTIFICATE")
      | .ok caPem =>
        let r := getACMCertificate cfg env csr acmCaArn certInfo
        (.describeCACertificate caCertID :: r.1, r.2.map (fun c => (caPem, c)))
  else
    match env.describeCACertificate cfg.caCertificateId with
    | .error _ =>
      ([.describeCACertificate cfg.caCertificateId], .error "UNABLE_TO_GET_CA_CERTIFICATE")
    | .ok caPem =>
      match env.getParameter ("cdf-ca-key-" ++ cfg.caCertificateId) with
      | .error _ =>
        ([.describeCACertificate cfg.caCertificateId,
          .getParameter ("cdf-ca-key-" ++ cfg.caCertificateId)],
         .error "UNABLE_TO_FETCH_CA_KEY")
      | .ok caKey =>
        match env.createCertificate csr caKey caPem with
        | .error e =>
          ([.describeCACertificate cfg.caCertificateId,
            .getParameter ("cdf-ca-key-" ++ cfg.caCertificateId),
            .createCertificate csr caKey caPem],
           .error e)
        | .ok certificate =>
          ([.describeCACertificate cfg.caCertificateId,
            .getParameter ("cdf-ca-key-" ++ cfg.caCertificateId),
            .createCertificate csr caKey caPem],
           .ok (caPem, certificate))

/-- The `for (const param of params) await attachPolicy(param)` loop of
`attachPolicyToCertificate`; any failure becomes
`UNABLE_TO_ATTACH_POLICY` and aborts the remaining attaches. -/
def attachPolicies (env : Env) : List (String × String) → List Effect × Except String Unit
  | [] => ([], .ok ())
  | (t, pn) :: rest =>
    match env.attachPolicy t pn with
    | .ok _ =>
      let r := attachPolicies env rest
      (.attachPolicy t pn :: r.1, r.2)
    | .error _ => ([.attachPolicy t pn], .error "UNABLE_TO_ATTACH_POLICY")

/-- `attachPolicyToCertificate(certificateArn, policy, previousCertificateId)`:
inherit the previous certificate's effective policies when
`previousCertificateId && !useDefaultPolicy`, else attach the single
default policy. -/
def attachPolicyToCertificate (cfg : Config) (env : Env) (certificateArn policy : String)
    (prev : Option String) : List Effect × Except String Unit :=
  if optTruthy prev && !cfg.useDefaultPolicy then
    let principal := certArnOf cfg (jsStr prev)
    match env.getEffectivePolicies principal with
    | .error e => ([.getEffectivePolicies principal], .error e)
    | .ok pols =>
      let r := attachPolicies env (pols.map (fun pn => (certificateArn, pn)))
      (.getEffectivePolicies principal :: r.1, r.2)
  else
    attachPolicies env [(certificateArn, policy)]

/-! ## The three public operations -/

/-- The body of a public operation: its effects, and either the response
to publish on the success topic, or the thrown error's message together
with the response object as mutated so far (which the `catch` block
publishes on the failure topic). -/
def OpResult : Type :=
  List Effect × Except (String × CertificateResponseModel) CertificateResponseModel

/-- The `catch` block of a public operation: set `response.message` to the
error's message, publish on the failure topic, and re-throw — the original
error if the publish succeeded, `UNABLE_TO_PUBLISH_RESPONSE` (from
`publishResponse`'s own wrapper) if it failed. -/
def finishFail (_cfg : Config) (env : Env) (failTopic deviceId : String)
    (resp : CertificateResponseModel) (e : String) : List Effect × Except String Unit :=
  let resp2 := { resp with message := some e }
  let topic := jsReplace failTopic "{thingName}" deviceId
  ([.publish topic resp2],
   match env.publish topic resp2 with
   | .ok _ => .error e
   | .error _ => .error "UNABLE_TO_PUBLISH_RESPONSE")

/-- The `try`/`catch` boundary of a public operation around its body:
publish the response on the success topic, or run the `catch` block.  A
failure of the success publish (`UNABLE_TO_PUBLISH_RESPONSE`) is itself
caught and handled by the `catch` block. -/
def runOp (cfg : Config) (env : Env) (succTopic failTopic deviceId : String)
    (body : OpResult) : List Effect × Except String Unit :=
  match body with
  | (tr, .ok resp) =>
    let topic := jsReplace succTopic "{thingName}" deviceId
    match env.publish topic resp with
    | .ok _ => (tr ++ [.publish topic resp], .ok ())
    | .error _ =>
      let r := finishFail cfg env failTopic deviceId resp "UNABLE_TO_PUBLISH_RESPONSE"
      (tr ++ .publish topic resp :: r.1, r.2)
  | (tr, .error (e, resp)) =>
    let r := finishFail cfg env failTopic deviceId resp e
    (tr ++ r.1, r.2)

/-- The `try` body of `get(deviceId)`. -/
def getBody (cfg : Config) (env : Env) (deviceId : String) : OpResult :=
  if deviceId = "" then ([], .error (owEmptyDeviceId, {}))
  else
    match env.isWhitelisted deviceId with
    | .error e => ([.isWhitelisted deviceId], .error (e, {}))
    | .ok false => ([.isWhitelisted deviceId], .error ("DEVICE_NOT_WHITELISTED", {}))
    | .ok true =>
      let key := cfg.s3Prefix ++ deviceId ++ cfg.s3Suffix
      match env.headObject cfg.s3Bucket key with
      | .error m =>
        -- `getCertificateId`'s catch re-raises a caught error whose message
        -- is exactly MISSING_CERTIFICATE_ID and maps only other errors to
        -- CERTIFICATE_NOT_FOUND.
        ([.isWhitelisted deviceId, .headObject cfg.s3Bucket key],
         .error (if m = "MISSING_CERTIFICATE_ID" then "MISSING_CERTIFICATE_ID"
                 else "CERTIFICATE_NOT_FOUND", {}))
      | .ok none =>
        ([.isWhitelisted deviceId, .headObject cfg.s3Bucket key],
         .error ("MISSING_CERTIFICATE_ID", {}))
      | .ok (some certificateId) =>
        match env.updateCertificate (some certificateId) "ACTIVE" with
        | .error _ =>
          ([.isWhitelisted deviceId, .headObject cfg.s3Bucket key,
            .updateCertificate (some certificateId) "ACTIVE"],
           .error ("UNABLE_TO_ACTIVATE_CERTIFICATE", {}))
        | .ok _ =>
          match env.getSignedUrl "getObject" cfg.s3Bucket key
              cfg.presignedUrlExpiresInSeconds with
          | .error _ =>
            ([.isWhitelisted deviceId, .headObject cfg.s3Bucket key,
              .updateCertificate (some certificateId) "ACTIVE",
              .getSignedUrl "getObject" cfg.s3Bucket key cfg.presignedUrlExpiresInSeconds],
             .error ("UNABLE_TO_PRESIGN_URL", {}))
          | .ok url =>
            match env.updateAssetStatus deviceId with
            | .error e =>
              ([.isWhitelisted deviceId, .headObject cfg.s3Bucket key,
                .updateCertificate (some certificateId) "ACTIVE",
                .getSignedUrl "getObject" cfg.s3Bucket key cfg.presignedUrlExpiresInSeconds,
                .updateAssetStatus deviceId],
               .error (e, {}))
            | .ok _ =>
              ([.isWhitelisted deviceId, .headObject cfg.s3Bucket key,
                .updateCertificate (some certificateId) "ACTIVE",
                .getSignedUrl "getObject" cfg.s3Bucket key cfg.presignedUrlExpiresInSeconds,
                .updateAssetStatus deviceId],
               .ok { location := some url })

/-- `get(deviceId)`. -/
def get (cfg : Config) (env : Env) (deviceId : String) : List Effect × Except String Unit :=
  runOp cfg env cfg.mqttGetSuccessTopic cfg.mqttGetFailureTopic deviceId
    (getBody cfg env deviceId)

/-- The `try` body of `getWithCsr`. -/
def getWithCsrBody (cfg : Config) (env : Env) (deviceId csr : String)
    (prev : Option String) (pp : Option ACMPCAParameters) : OpResult :=
  if deviceId = "" then ([], .error (owEmptyDeviceId, {}))
  else if csr = "" then ([], .error (owEmptyString, {}))
  else
    match env.isWhitelisted deviceId with
    | .error e => ([.isWhitelisted deviceId], .error (e, {}))
    | .ok false => ([.isWhitelisted deviceId], .error ("DEVICE_NOT_WHITELISTED", {}))
    | .ok true =>
      match obtainCertificate cfg env csr pp with
      | (tr1, .error e) => (.isWhitelisted deviceId :: tr1, .error (e, {}))
      | (tr1, .ok (caPem, certificate)) =>
        match env.registerCertificate caPem certificate with
        | .error _ =>
          (.isWhitelisted deviceId :: tr1 ++ [.registerCertificate caPem certificate],
           .error ("UNABLE_TO_REGISTER_CERTIFICATE", {}))
        | .ok certificateArn =>
          match env.attachThingPrincipal certificateArn deviceId with
          | .error _ =>
            (.isWhitelisted deviceId :: tr1 ++
               [.registerCertificate caPem certificate,
                .attachThingPrincipal certificateArn deviceId],
             .error ("UNABLE_TO_ATTACH_CERTIFICATE", {}))
          | .ok _ =>
            match attachPolicyToCertificate cfg env certificateArn
                cfg.rotatedCertificatePolicy prev with
            | (tr2, .error e) =>
              (.isWhitelisted deviceId :: tr1 ++
                 .registerCertificate caPem certificate ::
                 .attachThingPrincipal certificateArn deviceId :: tr2,
               .error (e, {}))
            | (tr2, .ok _) =>
              match env.updateAssetStatus deviceId with
              | .error e =>
                (.isWhitelisted deviceId :: tr1 ++
                   .registerCertificate caPem certificate ::
                   .attachThingPrincipal certificateArn deviceId :: tr2 ++
                   [.updateAssetStatus deviceId],
                 .error (e, {}))
              | .ok _ =>
                (.isWhitelisted deviceId :: tr1 ++
                   .registerCertificate caPem certificate ::
                   .attachThingPrincipal certificateArn deviceId :: tr2 ++
                   [.updateAssetStatus deviceId],
                 .ok { certificate := some certificate,
                       certificateId := jsSplit1 certificateArn })

/-- `getWithCsr(deviceId, csr, previousCertificateId?, acmpcaParameters?)`. -/
def getWithCsr (cfg : Config) (env : Env) (deviceId csr : String)
    (prev : Option String) (pp : Option ACMPCAParameters) :
    List Effect × Except String Unit :=
  runOp cfg env cfg.mqttGetSuccessTopic cfg.mqttGetFailureTopic deviceId
    (getWithCsrBody cfg env deviceId csr prev pp)

/-- The `try` body of `ack`. -/
def ackBody (cfg : Config) (env : Env) (deviceId certId : String)
    (prev : Option String) : OpResult :=
  match env.isWhitelisted deviceId with
  | .error e => ([.isWhitelisted deviceId], .error (e, {}))
  | .ok false => ([.isWhitelisted deviceId], .error ("DEVICE_NOT_WHITELISTED", {}))
  | .ok true =>
    match env.removeThingFromThingGroup deviceId cfg.thingGroupName with
    | .error e =>
      ([.isWhitelisted deviceId, .removeThingFromThingGroup deviceId cfg.thingGroupName],
       .error (e, {}))
    | .ok _ =>
      if cfg.deletePreviousCertificate then
        match removePreviousCertificate cfg env deviceId certId prev with
        | (tr, .error e) =>
          (.isWhitelisted deviceId ::
             .removeThingFromThingGroup deviceId cfg.thingGroupName :: tr,
           .error (e, {}))
        | (tr, .ok _) =>
          (.isWhitelisted deviceId ::
             .removeThingFromThingGroup deviceId cfg.thingGroupName :: tr,
           .ok { message := some "OK" })
      else
        ([.isWhitelisted deviceId, .removeThingFromThingGroup deviceId cfg.thingGroupName],
         .ok { message := some "OK" })

/-- `ack(deviceId, certId, previousCertificateId?)`.  Unlike `get` and
`getWithCsr`, the two `ow` validations sit before the `try`, so their
failures propagate without any publish. -/
def ack (cfg : Config) (env : Env) (deviceId certId : String)
    (prev : Option String) : List Effect × Except String Unit :=
  if deviceId = "" then ([], .error owEmptyDeviceId)
  else if certId = "" then ([], .error owEmptyString)
  else
    runOp cfg env cfg.mqttAckSuccessTopic cfg.mqttAckFailureTopic deviceId
      (ackBody cfg env deviceId certId prev)

/-! ## Concrete configuration and environments for instantiation -/

/-- A small concrete configuration. -/
def cfgW : Config where
  accountId := "a"
  region := "r"
  s3Bucket := "b"
  s3Prefix := "p-"
  s3Suffix := "-s"
  presignedUrlExpiresInSeconds := 300
  mqttGetSuccessTopic := "gs/{thingName}"
  mqttGetFailureTopic := "gf/{thingName}"
  mqttAckSuccessTopic := "as/{thingName}"
  mqttAckFailureTopic := "af/{thingName}"
  thingGroupName := "rot"
  caCertificateId := "ca1"
  useDefaultPolicy := false
  rotatedCertificatePolicy := "dpol"
  certificateExpiryDays := 365
  deletePreviousCertificate := true
  acmpcaCaArn := "pcaDefault"
  acmpcaEnabled := false
  acmpcaSigningAlgorithm := "SHA256WITHRSA"

/-- An environment in which every collaborator call succeeds. -/
def okEnv : Env where
  isWhitelisted := fun _ => .ok true
  updateAssetStatus := fun _ => .ok ()
  headObject := fun _ _ => .ok (some "cid1")
  getSignedUrl := fun _ _ _ _ => .ok "url1"
  publish := fun _ _ => .ok ()
  describeCACertificate := fun _ => .ok "CAPEM"
  getParameter := fun _ => .ok "CAKEY"
  createCertificate := fun _ _ _ => .ok "CERTPEM"
  registerCertificate := fun _ _ => .ok "pre/newcert"
  attachThingPrincipal := fun _ _ => .ok ()
  getEffectivePolicies := fun _ => .ok ["polA", "polB"]
  attachPolicy := fun _ _ => .ok ()
  removeThingFromThingGroup := fun _ _ => .ok ()
  issueCertificate := fun _ _ _ _ _ => .ok "issuedArn"
  waitForCertificateIssued := fun _ _ => .ok ("LEAF", "CHAIN")
  listThingPrincipals := fun _ => .ok []
  detachThingPrincipal := fun _ _ => .ok ()
  listPrincipalThings := fun _ => .ok []
  listAttachedPolicies := fun _ => .ok []
  detachPolicy := fun _ _ => .ok ()
  updateCertificate := fun _ _ => .ok ()
  deleteCertificate := fun _ => .ok ()
  processEnv := fun _ => none

/-! ## String lemmas -/

theorem leads_append (l t : List Char) : leads l (l ++ t) = true := by
  induction l with
  | nil => rfl
  | cons a as ih => simp [leads, ih]

theorem occursIn_nil_sub (l : List Char) : occursIn [] l = true := by
  cases l <;> simp [occursIn, leads, List.isEmpty]

theorem occursIn_of_parts (x pre post l : List Char) (h : l = pre ++ x ++ post) :
    occursIn x l = true := by
  induction pre generalizing l with
  | nil =>
    subst h
    cases x with
    | nil => exact occursIn_nil_sub _
    | cons a as =>
      simp only [List.nil_append, List.cons_append, occursIn, Bool.or_eq_true]
      exact Or.inl (by simpa using leads_append (a :: as) post)
  | cons b pre' ih =>
    subst h
    simp only [List.cons_append, occursIn, Bool.or_eq_true]
    exact Or.inr (ih _ rfl)

theorem splitChar_join (c : Char) (l : List Char) :
    l = (splitChar c l).1 ++ ((splitChar c l).2.map (fun t => c :: t)).flatten := by
  induction l with
  | nil => rfl
  | cons x xs ih =>
    by_cases hx : x = c
    · simp only [splitChar, hx, if_pos rfl]
      simpa using congrArg (c :: ·) ih
    · simp only [splitChar, if_neg hx]
      simpa using congrArg (x :: ·) ih

theorem jsSplit1_occursIn (s t : String) (h : jsSplit1 s = some t) :
    jsIncludes s t = true := by
  unfold jsSplit1 at h
  rcases hs : (splitChar '/' s.data).2 with _ | ⟨u, rest⟩
  · rw [hs] at h; exact absurd h (by simp)
  · rw [hs] at h
    have ht : t = String.mk u := by
      injection h with h'
      exact h'.symm
    have hjoin := splitChar_join '/' s.data
    rw [hs] at hjoin
    subst ht
    apply occursIn_of_parts u ((splitChar '/' s.data).1 ++ ['/'])
      ((rest.map (fun t => '/' :: t)).flatten)
    simpa using hjoin

/-- A principal whose `split('/')[1]` part equals the current certificate id
contains that id as a substring, so the loop's first test skips it. -/
theorem skip_of_jsSplit1_eq (certId : String) (prev : Option String) (p : String)
    (h : jsSplit1 p = some certId) : skipPrincipal certId prev p = true := by
  unfold skipPrincipal
  rw [jsSplit1_occursIn p certId h]
  simp

/-! ## Provenance of cleanup effects -/

/-- The effects that processing a single non-skipped principal `p` can emit;
the certificate deletion steps additionally record that the post-unbind
device listing for `p` came back empty. -/
def principalEffects (cfg : Config) (env : Env) (deviceId p : String) (e : Effect) : Prop :=
  e = .detachThingPrincipal deviceId p ∨ e = .listPrincipalThings p ∨
  (env.listPrincipalThings p = .ok [] ∧
    (e = .listAttachedPolicies (cleanupTarget cfg p) ∨
     (∃ pn, e = .detachPolicy (cleanupTarget cfg p) pn) ∨
     e = .updateCertificate (cleanupCid p) "INACTIVE" ∨
     e = .deleteCertificate (cleanupCid p)))

theorem detachPolicies_effects (env : Env) (target : String) (ps : List String)
    (e : Effect) (h : e ∈ (detachPolicies env target ps).1) :
    ∃ pn, e = .detachPolicy target pn := by
  induction ps with
  | nil => exact absurd h (by simp [detachPolicies])
  | cons pn rest ih =>
    unfold detachPolicies at h
    cases henv : env.detachPolicy target pn with
    | ok _ =>
      rw [henv] at h
      simp only [List.mem_cons] at h
      rcases h with h | h
      · exact ⟨pn, h⟩
      · exact ih h
    | error _ =>
      rw [henv] at h
      simp only [List.mem_singleton] at h
      exact ⟨pn, h⟩

theorem deleteOrphanedCert_effects (cfg : Config) (env : Env) (p : String)
    (e : Effect) (h : e ∈ (deleteOrphanedCert cfg env p).1) :
    e = .listAttachedPolicies (cleanupTarget cfg p) ∨
    (∃ pn, e = .detachPolicy (cleanupTarget cfg p) pn) ∨
    e = .updateCertificate (cleanupCid p) "INACTIVE" ∨
    e = .deleteCertificate (cleanupCid p) := by
  unfold deleteOrphanedCert at h
  cases hla : env.listAttachedPolicies (cleanupTarget cfg p) with
  | error _ =>
    simp only [hla, List.mem_singleton] at h
    exact Or.inl h
  | ok pols =>
    simp only [hla] at h
    rcases hdp : detachPolicies env (cleanupTarget cfg p) pols with ⟨tr, r⟩
    have htr : ∀ e', e' ∈ tr → ∃ pn,
        e' = Effect.detachPolicy (cleanupTarget cfg p) pn := by
      intro e' he'
      exact detachPolicies_effects env _ pols e' (by rw [hdp]; exact he')
    cases r with
    | error _ =>
      simp only [hdp, List.mem_cons] at h
      have hc : e = Effect.listAttachedPolicies (cleanupTarget cfg p) ∨ e ∈ tr := by tauto
      rcases hc with h' | h'
      · exact Or.inl h'
      · exact Or.inr (Or.inl (htr e h'))
    | ok _ =>
      cases huc : env.updateCertificate (cleanupCid p) "INACTIVE" with
      | error _ =>
        simp only [hdp, huc, List.mem_cons, List.mem_append, List.mem_singleton,
          List.not_mem_nil, or_false] at h
        have hc : e = Effect.listAttachedPolicies (cleanupTarget cfg p) ∨ e ∈ tr ∨
            e = Effect.updateCertificate (cleanupCid p) "INACTIVE" := by tauto
        rcases hc with h' | h' | h'
        · exact Or.inl h'
        · exact Or.inr (Or.inl (htr e h'))
        · exact Or.inr (Or.inr (Or.inl h'))
      | ok _ =>
        cases hdc : env.deleteCertificate (cleanupCid p) with
        | error _ =>
          simp only [hdp, huc, hdc, List.mem_cons, List.mem_append, List.mem_singleton,
            List.not_mem_nil, or_false] at h
          have hc : e = Effect.listAttachedPolicies (cleanupTarget cfg p) ∨ e ∈ tr ∨
              e = Effect.updateCertificate (cleanupCid p) "INACTIVE" ∨
              e = Effect.deleteCertificate (cleanupCid p) := by tauto
          rcases hc with h' | h' | h' | h'
          · exact Or.inl h'
          · exact Or.inr (Or.inl (htr e h'))
          · exact Or.inr (Or.inr (Or.inl h'))
          · exact Or.inr (Or.inr (Or.inr h'))
        | ok _ =>
          simp only [hdp, huc, hdc, List.mem_cons, List.mem_append, List.mem_singleton,
            List.not_mem_nil, or_false] at h
          have hc : e = Effect.listAttachedPolicies (cleanupTarget cfg p) ∨ e ∈ tr ∨
              e = Effect.updateCertificate (cleanupCid p) "INACTIVE" ∨
              e = Effect.deleteCertificate (cleanupCid p) := by tauto
          rcases hc with h' | h' | h' | h'
          · exact Or.inl h'
          · exact Or.inr (Or.inl (htr e h'))
          · exact Or.inr (Or.inr (Or.inl h'))
          · exact Or.inr (Or.inr (Or.inr h'))

theorem processPrincipal_effects (cfg : Config) (env : Env) (deviceId p : String)
    (e : Effect) (h : e ∈ (processPrincipal cfg env deviceId p).1) :
    principalEffects cfg env deviceId p e := by
  unfold processPrincipal at h
  unfold principalEffects
  cases hdt : env.detachThingPrincipal deviceId p with
  | error _ =>
    simp only [hdt, List.mem_singleton] at h
    exact Or.inl h
  | ok _ =>
    cases hlt : env.listPrincipalThings p with
    | error _ =>
      simp only [hdt, hlt, List.mem_cons, List.not_mem_nil, or_false] at h
      rcases h with h | h
      · exact Or.inl h
      · exact Or.inr (Or.inl h)
    | ok things =>
      by_cases hz : things.length = 0
      · have hnil : things = [] := List.length_eq_zero.mp hz
        subst hnil
        simp only [hdt, hlt, List.length_nil, if_true, List.mem_cons] at h
        rcases h with h | h | h
        · exact Or.inl h
        · exact Or.inr (Or.inl h)
        · refine Or.inr (Or.inr ⟨rfl, ?_⟩)
          exact deleteOrphanedCert_effects cfg env p e h
      · simp only [hdt, hlt, if_neg hz, List.mem_cons, List.not_mem_nil, or_false] at h
        rcases h with h | h
        · exact Or.inl h
        · exact Or.inr (Or.inl h)

theorem processPrincipals_effects (cfg : Config) (env : Env) (deviceId certId : String)
    (prev : Option String) (ps : List String) (e : Effect)
    (h : e ∈ (processPrincipals cfg env deviceId certId prev ps).1) :
    ∃ p, p ∈ ps ∧ skipPrincipal certId prev p = false ∧
      principalEffects cfg env deviceId p e := by
  induction ps with
  | nil => exact absurd h (by simp [processPrincipals])
  | cons q rest ih =>
    unfold processPrincipals at h
    by_cases hskip : skipPrincipal certId prev q
    · rw [if_pos hskip] at h
      rcases ih h with ⟨p, hp, hs, hpe⟩
      exact ⟨p, List.mem_cons_of_mem _ hp, hs, hpe⟩
    · rw [if_neg hskip] at h
      rcases hpp : processPrincipal cfg env deviceId q with ⟨tr, r⟩
      rw [hpp] at h
      have hq : ∀ e', e' ∈ tr → principalEffects cfg env deviceId q e' := by
        intro e' he'
        exact processPrincipal_effects cfg env deviceId q e' (by rw [hpp]; exact he')
      cases r with
      | error _ =>
        exact ⟨q, List.mem_cons_self _ _, Bool.not_eq_true _ ▸ (by simpa using hskip), hq e h⟩
      | ok _ =>
        simp only [List.mem_append] at h
        rcases h with h | h
        · exact ⟨q, List.mem_cons_self _ _, by simpa using hskip, hq e h⟩
        · rcases ih h with ⟨p, hp, hs, hpe⟩
          exact ⟨p, List.mem_cons_of_mem _ hp, hs, hpe⟩

theorem removePreviousCertificate_effects (cfg : Config) (env : Env)
    (deviceId certId : String) (prev : Option String) (e : Effect)
    (h : e ∈ (removePreviousCertificate cfg env deviceId certId prev).1) :
    e = .listThingPrincipals deviceId ∨
    ∃ ps p, env.listThingPrincipals deviceId = .ok ps ∧ p ∈ ps ∧
      skipPrincipal certId prev p = false ∧ principalEffects cfg env deviceId p e := by
  unfold removePreviousCertificate at h
  cases hl : env.listThingPrincipals deviceId with
  | error _ =>
    rw [hl] at h
    simp only [List.mem_singleton] at h
    exact Or.inl h
  | ok ps =>
    rw [hl] at h
    simp only [List.mem_cons] at h
    rcases h with h | h
    · exact Or.inl h
    · rcases processPrincipals_effects cfg env deviceId certId prev ps e h with ⟨p, hp, hs, hpe⟩
      exact Or.inr ⟨ps, p, rfl, hp, hs, hpe⟩

/-! ## Trace shape of a successful cleanup run -/

theorem detachPolicies_ok_trace (env : Env) (target : String) (ps : List String)
    (h : (detachPolicies env target ps).2 = .ok ()) :
    (detachPolicies env target ps).1 = ps.map (fun pn => Effect.detachPolicy target pn) := by
  induction ps with
  | nil => rfl
  | cons pn rest ih =>
    unfold detachPolicies at h ⊢
    cases hd : env.detachPolicy target pn with
    | ok _ =>
      simp only [hd] at h ⊢
      simp [ih h]
    | error e =>
      simp only [hd] at h
      exact absurd h (by simp)

theorem deleteOrphanedCert_ok_trace (cfg : Config) (env : Env) (p : String)
    (h : (deleteOrphanedCert cfg env p).2 = .ok ()) :
    ∃ pols, env.listAttachedPolicies (cleanupTarget cfg p) = .ok pols ∧
      (deleteOrphanedCert cfg env p).1 =
        .listAttachedPolicies (cleanupTarget cfg p) ::
          pols.map (fun pn => Effect.detachPolicy (cleanupTarget cfg p) pn) ++
          [.updateCertificate (cleanupCid p) "INACTIVE",
           .deleteCertificate (cleanupCid p)] := by
  unfold deleteOrphanedCert at h ⊢
  cases hla : env.listAttachedPolicies (cleanupTarget cfg p) with
  | error _ =>
    simp only [hla] at h
    exact absurd h (by simp)
  | ok pols =>
    simp only [hla] at h ⊢
    rcases hdp : detachPolicies env (cleanupTarget cfg p) pols with ⟨tr, r⟩
    cases r with
    | error _ =>
      simp only [hdp] at h
      exact absurd h (by simp)
    | ok _ =>
      have htr : tr = pols.map (fun pn => Effect.detachPolicy (cleanupTarget cfg p) pn) := by
        have := detachPolicies_ok_trace env (cleanupTarget cfg p) pols (by rw [hdp])
        rw [hdp] at this
        exact this
      cases huc : env.updateCertificate (cleanupCid p) "INACTIVE" with
      | error _ =>
        simp only [hdp, huc] at h
        exact absurd h (by simp)
      | ok _ =>
        cases hdc : env.deleteCertificate (cleanupCid p) with
        | error _ =>
          simp only [hdp, huc, hdc] at h
          exact absurd h (by simp)
        | ok _ =>
          simp only [hdp, huc, hdc]
          exact ⟨pols, rfl, by simp [htr]⟩

theorem processPrincipal_ok_shape (cfg : Config) (env : Env) (deviceId p : String)
    (h : (processPrincipal cfg env deviceId p).2 = .ok ()) :
    ∃ things, env.listPrincipalThings p = .ok things ∧
      ((things = [] ∧
          (processPrincipal cfg env deviceId p).1 =
            .detachThingPrincipal deviceId p :: .listPrincipalThings p ::
              (deleteOrphanedCert cfg env p).1 ∧
          (deleteOrphanedCert cfg env p).2 = .ok ()) ∨
       (things ≠ [] ∧
          (processPrincipal cfg env deviceId p).1 =
            [.detachThingPrincipal deviceId p, .listPrincipalThings p])) := by
  unfold processPrincipal at h ⊢
  cases hdt : env.detachThingPrincipal deviceId p with
  | error _ =>
    simp only [hdt] at h
    exact absurd h (by simp)
  | ok _ =>
    cases hlt : env.listPrincipalThings p with
    | error _ =>
      simp only [hdt, hlt] at h
      exact absurd h (by simp)
    | ok things =>
      by_cases hz : things.length = 0
      · have hnil : things = [] := List.length_eq_zero.mp hz
        subst hnil
        simp only [hdt, hlt, List.length_nil, if_true] at h ⊢
        refine ⟨[], ?_, Or.inl ⟨?_, ?_, ?_⟩⟩ <;> first | exact h | trivial
      · have hne : things ≠ [] := fun hc => hz (by rw [hc]; rfl)
        simp only [hdt, hlt, if_neg hz]
        refine ⟨things, ?_, Or.inr ⟨hne, ?_⟩⟩ <;> trivial

theorem processPrincipals_ok_segment (cfg : Config) (env : Env)
    (deviceId certId : String) (prev : Option String) (ps : List String) (p : String)
    (hok : (processPrincipals cfg env deviceId certId prev ps).2 = .ok ())
    (hmem : p ∈ ps) (hskip : skipPrincipal certId prev p = false) :
    ∃ pre post,
      (processPrincipals cfg env deviceId certId prev ps).1 =
        pre ++ (processPrincipal cfg env deviceId p).1 ++ post ∧
      (processPrincipal cfg env deviceId p).2 = .ok () := by
  induction ps with
  | nil => cases hmem
  | cons q rest ih =>
    rcases List.mem_cons.mp hmem with hq | hq
    · subst hq
      unfold processPrincipals at hok ⊢
      rw [if_neg (by rw [hskip]; simp)] at hok ⊢
      rcases hpp : processPrincipal cfg env deviceId p with ⟨tr, r⟩
      cases r with
      | error _ =>
        simp only [hpp] at hok
        exact absurd hok (by simp)
      | ok u =>
        cases u
        simp only [hpp] at hok ⊢
        refine ⟨[], (processPrincipals cfg env deviceId certId prev rest).1, by simp, ?_⟩
        trivial
    · unfold processPrincipals at hok ⊢
      by_cases hsq : skipPrincipal certId prev q
      · rw [if_pos hsq] at hok ⊢
        exact ih hok hq
      · rw [if_neg hsq] at hok ⊢
        rcases hpp : processPrincipal cfg env deviceId q with ⟨trq, rq⟩
        cases rq with
        | error _ =>
          simp only [hpp] at hok
          exact absurd hok (by simp)
        | ok _ =>
          simp only [hpp] at hok ⊢
          rcases ih hok hq with ⟨pre, post, htr, hr⟩
          exact ⟨trq ++ pre, post, by rw [htr]; simp, hr⟩

/-! ## Claim theorems: cleanup safety -/

/-- **C1**: in previous-certificate cleanup, for every environment (hence
every list of bound principals and every interleaving of skips and
failures), a principal containing the currently active `certId` is never
detached from the device, the current certificate id is never set
`INACTIVE` and never deleted, and a certificate is deleted only for a
bound principal whose post-unbind device listing came back empty. -/
theorem cleanup_preserves_current_certificate (cfg : Config) (env : Env)
    (deviceId certId : String) (prev : Option String) :
    (∀ p, jsIncludes p certId = true →
      Effect.detachThingPrincipal deviceId p ∉
        (removePreviousCertificate cfg env deviceId certId prev).1) ∧
    Effect.updateCertificate (some certId) "INACTIVE" ∉
      (removePreviousCertificate cfg env deviceId certId prev).1 ∧
    Effect.deleteCertificate (some certId) ∉
      (removePreviousCertificate cfg env deviceId certId prev).1 ∧
    (∀ cid, Effect.deleteCertificate cid ∈
        (removePreviousCertificate cfg env deviceId certId prev).1 →
      ∃ ps p, env.listThingPrincipals deviceId = .ok ps ∧ p ∈ ps ∧
        cid = cleanupCid p ∧ env.listPrincipalThings p = .ok []) := by
  refine ⟨?_, ?_, ?_, ?_⟩
  · intro p hinc hmem
    rcases removePreviousCertificate_effects cfg env deviceId certId prev _ hmem with
      h1 | ⟨ps, p', _, _, hsk, hpe⟩
    · exact absurd h1 (by simp)
    · rcases hpe with h1 | h1 | ⟨_, h1 | ⟨pn, h1⟩ | h1 | h1⟩
      · have hp : p = p' := by simpa using h1
        subst hp
        unfold skipPrincipal at hsk
        rw [if_pos hinc] at hsk
        exact absurd hsk (by simp)
      · exact absurd h1 (by simp)
      · exact absurd h1 (by simp)
      · exact absurd h1 (by simp)
      · exact absurd h1 (by simp)
      · exact absurd h1 (by simp)
  · intro hmem
    rcases removePreviousCertificate_effects cfg env deviceId certId prev _ hmem with
      h1 | ⟨ps, p', _, _, hsk, hpe⟩
    · exact absurd h1 (by simp)
    · rcases hpe with h1 | h1 | ⟨_, h1 | ⟨pn, h1⟩ | h1 | h1⟩
      · exact absurd h1 (by simp)
      · exact absurd h1 (by simp)
      · exact absurd h1 (by simp)
      · exact absurd h1 (by simp)
      · have hcid0 : some certId = cleanupCid p' := by simpa using h1
        have hs := skip_of_jsSplit1_eq certId prev p' hcid0.symm
        rw [hs] at hsk
        exact absurd hsk (by simp)
      · exact absurd h1 (by simp)
  · intro hmem
    rcases removePreviousCertificate_effects cfg env deviceId certId prev _ hmem with
      h1 | ⟨ps, p', _, _, hsk, hpe⟩
    · exact absurd h1 (by simp)
    · rcases hpe with h1 | h1 | ⟨_, h1 | ⟨pn, h1⟩ | h1 | h1⟩
      · exact absurd h1 (by simp)
      · exact absurd h1 (by simp)
      · exact absurd h1 (by simp)
      · exact absurd h1 (by simp)
      · exact absurd h1 (by simp)
      · have hcid0 : some certId = cleanupCid p' := by simpa using h1
        have hs := skip_of_jsSplit1_eq certId prev p' hcid0.symm
        rw [hs] at hsk
        exact absurd hsk (by simp)
  · intro cid hmem
    rcases removePreviousCertificate_effects cfg env deviceId certId prev _ hmem with
      h1 | ⟨ps, p', hps, hp', _, hpe⟩
    · exact absurd h1 (by simp)
    · rcases hpe with h1 | h1 | ⟨hlt, h1 | ⟨pn, h1⟩ | h1 | h1⟩
      · exact absurd h1 (by simp)
      · exact absurd h1 (by simp)
      · exact absurd h1 (by simp)
      · exact absurd h1 (by simp)
      · exact absurd h1 (by simp)
      · have hcid : cid = cleanupCid p' := by simpa using h1
        exact ⟨ps, p', hps, hp', hcid, hlt⟩

/-- A principal that the loop's skip tests accept is never detached from
the device, under any environment. -/
theorem detach_skipped_principal_not_in_cleanup (cfg : Config) (env : Env)
    (deviceId certId : String) (prev : Option String) (p : String)
    (hskip : skipPrincipal certId prev p = true) :
    Effect.detachThingPrincipal deviceId p ∉
      (removePreviousCertificate cfg env deviceId certId prev).1 := by
  intro hmem
  rcases removePreviousCertificate_effects cfg env deviceId certId prev _ hmem with
    h1 | ⟨ps, p', _, _, hsk, hpe⟩
  · exact absurd h1 (by simp)
  · rcases hpe with h1 | h1 | ⟨_, h1 | ⟨pn, h1⟩ | h1 | h1⟩
    · have hp : p = p' := by simpa using h1
      subst hp
      rw [hskip] at hsk
      exact absurd hsk (by simp)
    · exact absurd h1 (by simp)
    · exact absurd h1 (by simp)
    · exact absurd h1 (by simp)
    · exact absurd h1 (by simp)
    · exact absurd h1 (by simp)

/-- **C2**: in a completed cleanup run, a bound principal that is
non-current and not excluded by a named `previousCertificateId` is first
detached from the device; then, exactly when the post-unbind device
listing for it is empty, its attached policies are each detached, it is
set `INACTIVE`, and it is deleted — contiguously and in that order. -/
theorem cleanup_unbind_before_conditional_delete (cfg : Config) (env : Env)
    (deviceId certId : String) (prev : Option String) (ps : List String) (p : String)
    (hps : env.listThingPrincipals deviceId = .ok ps)
    (hok : (removePreviousCertificate cfg env deviceId certId prev).2 = .ok ())
    (hmem : p ∈ ps)
    (hcur : jsIncludes p certId = false)
    (hexc : ∀ pc, prev = some pc → pc ≠ "" → jsIncludes p pc = true) :
    ∃ pre post things, env.listPrincipalThings p = .ok things ∧
      ((things ≠ [] ∧
          (removePreviousCertificate cfg env deviceId certId prev).1 =
            pre ++ [.detachThingPrincipal deviceId p, .listPrincipalThings p] ++ post) ∨
       (things = [] ∧ ∃ pols,
          env.listAttachedPolicies (cleanupTarget cfg p) = .ok pols ∧
          (removePreviousCertificate cfg env deviceId certId prev).1 =
            pre ++ (.detachThingPrincipal deviceId p :: .listPrincipalThings p ::
              .listAttachedPolicies (cleanupTarget cfg p) ::
              pols.map (fun pn => Effect.detachPolicy (cleanupTarget cfg p) pn) ++
              [.updateCertificate (cleanupCid p) "INACTIVE",
               .deleteCertificate (cleanupCid p)]) ++ post)) := by
  have hskip : skipPrincipal certId prev p = false := by
    unfold skipPrincipal
    rw [if_neg (by rw [hcur]; simp)]
    cases prev with
    | none => rfl
    | some pc =>
      by_cases hpc : pc = ""
      · subst hpc; simp
      · simp [hexc pc rfl hpc]
  have hok' : (processPrincipals cfg env deviceId certId prev ps).2 = .ok () := by
    unfold removePreviousCertificate at hok
    simp only [hps] at hok
    exact hok
  rcases processPrincipals_ok_segment cfg env deviceId certId prev ps p hok' hmem hskip with
    ⟨pre0, post0, hseg, hppok⟩
  rcases processPrincipal_ok_shape cfg env deviceId p hppok with ⟨things, hlt, hcase⟩
  have htrace : (removePreviousCertificate cfg env deviceId certId prev).1 =
      .listThingPrincipals deviceId ::
        (processPrincipals cfg env deviceId certId prev ps).1 := by
    unfold removePreviousCertificate
    simp only [hps]
  rcases hcase with ⟨hnil, hsh, hdok⟩ | ⟨hne, hsh⟩
  · rcases deleteOrphanedCert_ok_trace cfg env p hdok with ⟨pols, hla, hdtr⟩
    refine ⟨.listThingPrincipals deviceId :: pre0, post0, [], hnil ▸ hlt,
      Or.inr ⟨rfl, pols, hla, ?_⟩⟩
    rw [htrace, hseg, hsh, hdtr]
    simp
  · refine ⟨.listThingPrincipals deviceId :: pre0, post0, things, hlt,
      Or.inl ⟨hne, ?_⟩⟩
    rw [htrace, hseg, hsh]
    simp

/-- A concrete environment for the substring-exemption instance: the only
bound principal carries certificate id `abc123`, distinct from the current
id `abc1` yet containing it. -/
def envC9 : Env :=
  { okEnv with listThingPrincipals := fun _ => .ok ["arn:aws:iot:r:a:cert/abc123"] }

/-- **C9**: the cleanup exemption tests are substring containment on the
principal ARN, not certificate-id equality: any principal whose ARN
contains the current `certId` is skipped, a principal is cleaned only if
its ARN contains the given `previousCertificateId`, and concretely a
distinct certificate whose id `abc123` merely contains the current id
`abc1` is left completely untouched. -/
theorem cleanup_exemption_is_substring_containment (cfg : Config) (env : Env)
    (deviceId certId : String) (prev : Option String) :
    (∀ p, jsIncludes p certId = true →
      Effect.detachThingPrincipal deviceId p ∉
        (removePreviousCertificate cfg env deviceId certId prev).1) ∧
    (∀ pc p, prev = some pc → pc ≠ "" → jsIncludes p pc = false →
      Effect.detachThingPrincipal deviceId p ∉
        (removePreviousCertificate cfg env deviceId certId prev).1) ∧
    (removePreviousCertificate cfgW envC9 "d" "abc1" none).1 =
      [.listThingPrincipals "d"] := by
  refine ⟨?_, ?_, ?_⟩
  · intro p hinc
    apply detach_skipped_principal_not_in_cleanup
    unfold skipPrincipal
    rw [if_pos hinc]
  · intro pc p hpc hpcne hninc
    apply detach_skipped_principal_not_in_cleanup
    subst hpc
    unfold skipPrincipal
    by_cases hc : jsIncludes p certId
    · rw [if_pos hc]
    · rw [if_neg hc]
      simp only [hninc]
      simp [hpcne]
  · rfl

/-! ## Publish and policy-attachment accounting -/

/-- The publish calls in a trace, in order, with topic and payload. -/
def publishCalls (tr : List Effect) : List (String × CertificateResponseModel) :=
  tr.filterMap (fun e => match e with
    | .publish t r => some (t, r)
    | _ => none)

/-- The `attachPolicy` calls in a trace, in order, with target and policy. -/
def attachCalls (tr : List Effect) : List (String × String) :=
  tr.filterMap (fun e => match e with
    | .attachPolicy t pn => some (t, pn)
    | _ => none)

theorem publishCalls_append (a b : List Effect) :
    publishCalls (a ++ b) = publishCalls a ++ publishCalls b :=
  List.filterMap_append a b _

theorem attachPolicies_effects (env : Env) (items : List (String × String)) (e : Effect)
    (h : e ∈ (attachPolicies env items).1) : ∃ t pn, e = .attachPolicy t pn := by
  induction items with
  | nil => exact absurd h (by simp [attachPolicies])
  | cons i rest ih =>
    rcases i with ⟨t, pn⟩
    unfold attachPolicies at h
    cases ha : env.attachPolicy t pn with
    | ok _ =>
      simp only [ha, List.mem_cons] at h
      rcases h with h | h
      · exact ⟨t, pn, h⟩
      · exact ih h
    | error _ =>
      simp only [ha, List.mem_singleton] at h
      exact ⟨t, pn, h⟩

theorem attachPolicies_ok_trace (env : Env) (items : List (String × String))
    (h : (attachPolicies env items).2 = .ok ()) :
    (attachPolicies env items).1 = items.map (fun i => Effect.attachPolicy i.1 i.2) := by
  induction items with
  | nil => rfl
  | cons i rest ih =>
    rcases i with ⟨t, pn⟩
    unfold attachPolicies at h ⊢
    cases ha : env.attachPolicy t pn with
    | ok _ =>
      simp only [ha] at h ⊢
      simp [ih h]
    | error _ =>
      simp only [ha] at h
      exact absurd h (by simp)

theorem attachPolicies_error_trace (env : Env) (items : List (String × String)) (e : String)
    (h : (attachPolicies env items).2 = .error e) :
    e = "UNABLE_TO_ATTACH_POLICY" ∧ ∃ k, k < items.length ∧
      (attachPolicies env items).1 =
        (items.take (k + 1)).map (fun i => Effect.attachPolicy i.1 i.2) := by
  induction items with
  | nil => exact absurd h (by simp [attachPolicies])
  | cons i rest ih =>
    rcases i with ⟨t, pn⟩
    unfold attachPolicies at h ⊢
    cases ha : env.attachPolicy t pn with
    | ok _ =>
      simp only [ha] at h ⊢
      rcases ih h with ⟨he, k, hk, htr⟩
      exact ⟨he, k + 1, by simpa using hk, by simp [htr]⟩
    | error _ =>
      simp only [ha] at h ⊢
      refine ⟨by injection h with h'; exact h'.symm, 0, by simp, by simp⟩

theorem attachCalls_of_pairs (items : List (String × String)) :
    attachCalls (items.map (fun i => Effect.attachPolicy i.1 i.2)) = items := by
  induction items with
  | nil => rfl
  | cons i l ih =>
    simp only [List.map_cons, attachCalls, List.filterMap_cons] at ih ⊢
    rw [ih]

theorem getACMCertificate_effects (cfg : Config) (env : Env) (csr caArn : String)
    (certInfo : Option CertInfo) (e : Effect)
    (h : e ∈ (getACMCertificate cfg env csr caArn certInfo).1) :
    e = .issueCertificate csr caArn cfg.acmpcaSigningAlgorithm cfg.certificateExpiryDays
        certInfo ∨
    ∃ arn, e = .waitForCertificateIssued caArn arn := by
  unfold getACMCertificate at h
  cases hi : env.issueCertificate csr caArn cfg.acmpcaSigningAlgorithm
      cfg.certificateExpiryDays certInfo with
  | error _ =>
    simp only [hi, List.mem_singleton] at h
    exact Or.inl h
  | ok arn =>
    cases hw : env.waitForCertificateIssued caArn arn with
    | error _ =>
      simp only [hi, hw, List.mem_cons, List.not_mem_nil, or_false] at h
      rcases h with h | h
      · exact Or.inl h
      · exact Or.inr ⟨arn, h⟩
    | ok pr =>
      rcases pr with ⟨leaf, chain⟩
      simp only [hi, hw, List.mem_cons, List.not_mem_nil, or_false] at h
      rcases h with h | h
      · exact Or.inl h
      · exact Or.inr ⟨arn, h⟩

theorem obtainCertificate_effects (cfg : Config) (env : Env) (csr : String)
    (pp : Option ACMPCAParameters) (e : Effect)
    (h : e ∈ (obtainCertificate cfg env csr pp).1) :
    (∃ c, e = .describeCACertificate c) ∨ (∃ n, e = .getParameter n) ∨
    (∃ a b c, e = .createCertificate a b c) ∨
    (∃ a b c n ci, e = .issueCertificate a b c n ci) ∨
    (∃ a b, e = .waitForCertificateIssued a b) := by
  unfold obtainCertificate at h
  by_cases hacm : cfg.acmpcaEnabled
  · simp only [hacm, if_true] at h
    cases hres : resolveAcmpcaParams cfg env pp with
    | error _ =>
      rw [hres] at h
      exact absurd h (by simp)
    | ok tuple =>
      rcases tuple with ⟨acmCaArn, caCertID, certInfo⟩
      rw [hres] at h
      cases hd : env.describeCACertificate caCertID with
      | error _ =>
        simp only [hd, List.mem_singleton] at h
        exact Or.inl ⟨caCertID, h⟩
      | ok caPem =>
        simp only [hd, List.mem_cons] at h
        rcases h with h | h
        · exact Or.inl ⟨caCertID, h⟩
        · rcases getACMCertificate_effects cfg env csr acmCaArn certInfo e h with h | ⟨arn, h⟩
          · exact Or.inr (Or.inr (Or.inr (Or.inl ⟨_, _, _, _, _, h⟩)))
          · exact Or.inr (Or.inr (Or.inr (Or.inr ⟨_, _, h⟩)))
  · simp only [hacm, Bool.false_eq_true, if_false] at h
    cases hd : env.describeCACertificate cfg.caCertificateId with
    | error _ =>
      simp only [hd, List.mem_singleton] at h
      exact Or.inl ⟨_, h⟩
    | ok caPem =>
      cases hg : env.getParameter ("cdf-ca-key-" ++ cfg.caCertificateId) with
      | error _ =>
        simp only [hd, hg, List.mem_cons, List.not_mem_nil, or_false] at h
        rcases h with h | h
        · exact Or.inl ⟨_, h⟩
        · exact Or.inr (Or.inl ⟨_, h⟩)
      | ok caKey =>
        cases hc : env.createCertificate csr caKey caPem with
        | error _ =>
          simp only [hd, hg, hc, List.mem_cons, List.not_mem_nil, or_false] at h
          rcases h with h | h | h
          · exact Or.inl ⟨_, h⟩
          · exact Or.inr (Or.inl ⟨_, h⟩)
          · exact Or.inr (Or.inr (Or.inl ⟨_, _, _, h⟩))
        | ok cert =>
          simp only [hd, hg, hc, List.mem_cons, List.not_mem_nil, or_false] at h
          rcases h with h | h | h
          · exact Or.inl ⟨_, h⟩
          · exact Or.inr (Or.inl ⟨_, h⟩)
          · exact Or.inr (Or.inr (Or.inl ⟨_, _, _, h⟩))

theorem attachPolicyToCertificate_effects (cfg : Config) (env : Env)
    (certificateArn policy : String) (prev : Option String) (e : Effect)
    (h : e ∈ (attachPolicyToCertificate cfg env certificateArn policy prev).1) :
    (∃ pr, e = .getEffectivePolicies pr) ∨ ∃ t pn, e = .attachPolicy t pn := by
  unfold attachPolicyToCertificate at h
  by_cases hb : optTruthy prev && !cfg.useDefaultPolicy
  · simp only [hb, if_true] at h
    cases hg : env.getEffectivePolicies (certArnOf cfg (jsStr prev)) with
    | error _ =>
      simp only [hg, List.mem_singleton] at h
      exact Or.inl ⟨_, h⟩
    | ok pols =>
      simp only [hg, List.mem_cons] at h
      rcases h with h | h
      · exact Or.inl ⟨_, h⟩
      · exact Or.inr (attachPolicies_effects env _ e h)
  · simp only [hb, if_false] at h
    exact Or.inr (attachPolicies_effects env _ e h)

/-! ## Behaviour of the try/catch boundary -/

theorem runOp_publish_fail (cfg : Config) (env : Env) (st ft d : String) (body : OpResult)
    (hpub : ∀ t r, ∃ m, env.publish t r = .error m) :
    (runOp cfg env st ft d body).2 = .error "UNABLE_TO_PUBLISH_RESPONSE" := by
  rcases body with ⟨tr, r⟩
  cases r with
  | ok resp =>
    unfold runOp finishFail
    rcases hpub (jsReplace st "{thingName}" d) resp with ⟨m, hm⟩
    rcases hpub (jsReplace ft "{thingName}" d)
      { resp with message := some "UNABLE_TO_PUBLISH_RESPONSE" } with ⟨m2, hm2⟩
    simp [hm, hm2]
  | error pr =>
    rcases pr with ⟨e, resp⟩
    unfold runOp finishFail
    rcases hpub (jsReplace ft "{thingName}" d) { resp with message := some e } with ⟨m, hm⟩
    simp [hm]

theorem runOp_single_publish (cfg : Config) (env : Env) (st ft d : String) (body : OpResult)
    (hpub : ∀ t r, env.publish t r = .ok ())
    (hnp : publishCalls body.1 = []) :
    ((runOp cfg env st ft d body).2 = .ok () →
      ∃ r, publishCalls (runOp cfg env st ft d body).1 =
        [(jsReplace st "{thingName}" d, r)]) ∧
    (∀ e, (runOp cfg env st ft d body).2 = .error e →
      ∃ r, publishCalls (runOp cfg env st ft d body).1 =
          [(jsReplace ft "{thingName}" d, r)] ∧
        r.message = some e) := by
  rcases body with ⟨tr, r⟩
  cases r with
  | ok resp =>
    unfold runOp
    simp only [hpub]
    constructor
    · intro _
      refine ⟨resp, ?_⟩
      rw [publishCalls_append]
      simp only [hnp] at *
      simp [publishCalls, hnp]
    · intro e he
      exact absurd he (by simp)
  | error pr =>
    rcases pr with ⟨e0, resp⟩
    unfold runOp finishFail
    simp only [hpub]
    constructor
    · intro he
      exact absurd he (by simp)
    · intro e he
      have he0 : e = e0 := by
        injection he with h'
        exact h'.symm
      subst he0
      refine ⟨{ resp with message := some e }, ?_, rfl⟩
      rw [publishCalls_append]
      simp only [hnp] at *
      simp [publishCalls, hnp]

theorem runOp_mem_body (cfg : Config) (env : Env) (st ft d : String) (body : OpResult)
    (e : Effect) (h : e ∈ (runOp cfg env st ft d body).1) :
    e ∈ body.1 ∨ e.isPublish = true := by
  rcases body with ⟨tr, r⟩
  cases r with
  | ok resp =>
    unfold runOp at h
    cases hp : env.publish (jsReplace st "{thingName}" d) resp with
    | ok _ =>
      simp only [hp, List.mem_append, List.mem_singleton] at h
      rcases h with h | h
      · exact Or.inl h
      · subst h; exact Or.inr rfl
    | error _ =>
      simp only [hp, finishFail, List.mem_append, List.mem_cons, List.mem_singleton,
        List.not_mem_nil, or_false] at h
      rcases h with h | h | h
      · exact Or.inl h
      · subst h; exact Or.inr rfl
      · subst h; exact Or.inr rfl
  | error pr =>
    rcases pr with ⟨e0, resp⟩
    unfold runOp finishFail at h
    simp only [List.mem_append, List.mem_singleton] at h
    rcases h with h | h
    · exact Or.inl h
    · subst h; exact Or.inr rfl

theorem runOp_ok_body (cfg : Config) (env : Env) (st ft d : String) (body : OpResult)
    (h : (runOp cfg env st ft d body).2 = .ok ()) :
    ∃ tr resp, body = (tr, .ok resp) := by
  rcases body with ⟨tr, r⟩
  cases r with
  | ok resp => exact ⟨tr, resp, rfl⟩
  | error pr =>
    rcases pr with ⟨e0, resp⟩
    unfold runOp finishFail at h
    cases hp : env.publish (jsReplace ft "{thingName}" d) { resp with message := some e0 } with
    | ok _ => simp only [hp] at h; exact absurd h (by simp)
    | error _ => simp only [hp] at h; exact absurd h (by simp)

theorem runOp_error_cases (cfg : Config) (env : Env) (st ft d : String) (body : OpResult)
    (e : String) (h : (runOp cfg env st ft d body).2 = .error e) :
    (∃ tr e0 resp, body = (tr, .error (e0, resp)) ∧
      (e = e0 ∨ e = "UNABLE_TO_PUBLISH_RESPONSE")) ∨
    (∃ tr resp, body = (tr, .ok resp) ∧ e = "UNABLE_TO_PUBLISH_RESPONSE") := by
  rcases body with ⟨tr, r⟩
  cases r with
  | ok resp =>
    unfold runOp finishFail at h
    cases hp : env.publish (jsReplace st "{thingName}" d) resp with
    | ok _ => simp only [hp] at h; exact absurd h (by simp)
    | error _ =>
      simp only [hp] at h
      cases hp2 : env.publish (jsReplace ft "{thingName}" d)
          { resp with message := some "UNABLE_TO_PUBLISH_RESPONSE" } with
      | ok _ =>
        simp only [hp2] at h
        refine Or.inr ⟨tr, resp, rfl, ?_⟩
        injection h with h'
        exact h'.symm
      | error _ =>
        simp only [hp2] at h
        refine Or.inr ⟨tr, resp, rfl, ?_⟩
        injection h with h'
        exact h'.symm
  | error pr =>
    rcases pr with ⟨e0, resp⟩
    unfold runOp finishFail at h
    cases hp : env.publish (jsReplace ft "{thingName}" d) { resp with message := some e0 } with
    | ok _ =>
      simp only [hp] at h
      refine Or.inl ⟨tr, e0, resp, rfl, Or.inl ?_⟩
      injection h with h'
      exact h'.symm
    | error _ =>
      simp only [hp] at h
      refine Or.inl ⟨tr, e0, resp, rfl, Or.inr ?_⟩
      injection h with h'
      exact h'.symm

/-! ## Claim theorems: issuance and policy attachment -/

/-- **C8**: a successful managed-CA issuance produces, as the canonical
certificate value, the leaf certificate PEM concatenated with a single
newline and the chain PEM. -/
theorem acm_certificate_is_leaf_newline_chain (cfg : Config) (env : Env)
    (csr caArn : String) (certInfo : Option CertInfo) (arn leaf chain : String)
    (hiss : env.issueCertificate csr caArn cfg.acmpcaSigningAlgorithm
      cfg.certificateExpiryDays certInfo = .ok arn)
    (hwait : env.waitForCertificateIssued caArn arn = .ok (leaf, chain)) :
    (getACMCertificate cfg env csr caArn certInfo).2 = .ok (leaf ++ "\n" ++ chain) := by
  unfold getACMCertificate
  simp [hiss, hwait]

/-- **C4**: with a truthy `previousCertificateId` and the default-policy
flag off, the policies attached to the new certificate are exactly the
previous certificate's effective policies (each attached individually, a
failing attach aborting the rest with `UNABLE_TO_ATTACH_POLICY`);
otherwise exactly the single configured default policy is attached. -/
theorem policy_attachment_inherit_or_default (cfg : Config) (env : Env)
    (certificateArn policy : String) (prev : Option String) :
    (∀ pc pols, prev = some pc → pc ≠ "" → cfg.useDefaultPolicy = false →
      env.getEffectivePolicies (certArnOf cfg pc) = .ok pols →
      (((attachPolicyToCertificate cfg env certificateArn policy prev).2 = .ok () →
          attachCalls (attachPolicyToCertificate cfg env certificateArn policy prev).1 =
            pols.map (fun pn => (certificateArn, pn))) ∧
       (∀ e, (attachPolicyToCertificate cfg env certificateArn policy prev).2 = .error e →
          e = "UNABLE_TO_ATTACH_POLICY" ∧ ∃ k, k < pols.length ∧
            attachCalls (attachPolicyToCertificate cfg env certificateArn policy prev).1 =
              ((pols.take (k + 1)).map (fun pn => (certificateArn, pn)))))) ∧
    ((prev = none ∨ prev = some "" ∨ cfg.useDefaultPolicy = true) →
      attachCalls (attachPolicyToCertificate cfg env certificateArn policy prev).1 =
        [(certificateArn, policy)]) := by
  constructor
  · intro pc pols hpc hne hdef hpols
    subst hpc
    have hb : ((optTruthy (some pc) && !cfg.useDefaultPolicy) = true) := by
      simp [optTruthy, hne, hdef]
    have hjs : jsStr (some pc) = pc := rfl
    constructor
    · intro hok
      unfold attachPolicyToCertificate at hok ⊢
      rw [if_pos hb] at hok ⊢
      simp only [hjs, hpols] at hok ⊢
      have htr := attachPolicies_ok_trace env
        (pols.map (fun pn => (certificateArn, pn))) hok
      show attachCalls ((attachPolicies env (pols.map (fun pn => (certificateArn, pn)))).1) = _
      rw [htr, attachCalls_of_pairs]
    · intro e herr
      unfold attachPolicyToCertificate at herr ⊢
      rw [if_pos hb] at herr ⊢
      simp only [hjs, hpols] at herr ⊢
      rcases attachPolicies_error_trace env
        (pols.map (fun pn => (certificateArn, pn))) e herr with ⟨he, k, hk, htr⟩
      refine ⟨he, k, by simpa using hk, ?_⟩
      show attachCalls ((attachPolicies env (pols.map (fun pn => (certificateArn, pn)))).1) = _
      rw [htr, attachCalls_of_pairs, ← List.map_take]
  · intro hcase
    have hb : ((optTruthy prev && !cfg.useDefaultPolicy) = false) := by
      rcases hcase with h | h | h
      · subst h; rfl
      · subst h; rfl
      · simp [h]
    unfold attachPolicyToCertificate
    rw [if_neg (by simp [hb])]
    cases ha : env.attachPolicy certificateArn policy with
    | ok _ => simp [attachPolicies, ha, attachCalls]
    | error _ => simp [attachPolicies, ha, attachCalls]

/-! ## Claim theorems: whitelist short-circuit and publish failure -/

/-- **C3**: when the whitelist check returns `false`, each of the three
public operations makes no registry/authority mutation call — its trace is
exactly the whitelist read followed by one publish attempt — and the only
outcome published is the failure outcome carrying
`DEVICE_NOT_WHITELISTED`. -/
theorem whitelist_failure_short_circuits (cfg : Config) (env : Env)
    (deviceId csr certId : String) (prev : Option String) (pp : Option ACMPCAParameters)
    (hdev : deviceId ≠ "") (hcsr : csr ≠ "") (hcert : certId ≠ "")
    (hw : env.isWhitelisted deviceId = .ok false) :
    ((get cfg env deviceId).1.all (fun e => !e.isMutation) = true ∧
      publishCalls (get cfg env deviceId).1 =
        [(jsReplace cfg.mqttGetFailureTopic "{thingName}" deviceId,
          { message := some "DEVICE_NOT_WHITELISTED" })]) ∧
    ((getWithCsr cfg env deviceId csr prev pp).1.all (fun e => !e.isMutation) = true ∧
      publishCalls (getWithCsr cfg env deviceId csr prev pp).1 =
        [(jsReplace cfg.mqttGetFailureTopic "{thingName}" deviceId,
          { message := some "DEVICE_NOT_WHITELISTED" })]) ∧
    ((ack cfg env deviceId certId prev).1.all (fun e => !e.isMutation) = true ∧
      publishCalls (ack cfg env deviceId certId prev).1 =
        [(jsReplace cfg.mqttAckFailureTopic "{thingName}" deviceId,
          { message := some "DEVICE_NOT_WHITELISTED" })]) := by
  refine ⟨?_, ?_, ?_⟩
  · unfold get runOp getBody finishFail
    rw [if_neg hdev]
    simp [hw, publishCalls, Effect.isMutation]
  · unfold getWithCsr runOp getWithCsrBody finishFail
    rw [if_neg hdev, if_neg hcsr]
    simp [hw, publishCalls, Effect.isMutation]
  · unfold ack runOp ackBody finishFail
    rw [if_neg hdev, if_neg hcert]
    simp [hw, publishCalls, Effect.isMutation]

/-- **C10**: when the response-channel publish fails, every public
operation raises `UNABLE_TO_PUBLISH_RESPONSE` to its caller — the
originating step's error is replaced, not re-raised. -/
theorem publish_failure_replaces_error (cfg : Config) (env : Env)
    (deviceId csr certId : String) (prev : Option String) (pp : Option ACMPCAParameters)
    (hdev : deviceId ≠ "") (hcert : certId ≠ "")
    (hpub : ∀ t r, ∃ m, env.publish t r = .error m) :
    (get cfg env deviceId).2 = .error "UNABLE_TO_PUBLISH_RESPONSE" ∧
    (getWithCsr cfg env deviceId csr prev pp).2 = .error "UNABLE_TO_PUBLISH_RESPONSE" ∧
    (ack cfg env deviceId certId prev).2 = .error "UNABLE_TO_PUBLISH_RESPONSE" := by
  refine ⟨?_, ?_, ?_⟩
  · exact runOp_publish_fail cfg env _ _ _ _ hpub
  · exact runOp_publish_fail cfg env _ _ _ _ hpub
  · unfold ack
    rw [if_neg hdev, if_neg hcert]
    exact runOp_publish_fail cfg env _ _ _ _ hpub

/-! ## Effect characterization of the operation bodies -/

theorem getBody_effects (cfg : Config) (env : Env) (deviceId : String) (e : Effect)
    (h : e ∈ (getBody cfg env deviceId).1) :
    e = .isWhitelisted deviceId ∨
    e = .headObject cfg.s3Bucket (cfg.s3Prefix ++ deviceId ++ cfg.s3Suffix) ∨
    (∃ cid, e = .updateCertificate (some cid) "ACTIVE") ∨
    e = .getSignedUrl "getObject" cfg.s3Bucket (cfg.s3Prefix ++ deviceId ++ cfg.s3Suffix)
      cfg.presignedUrlExpiresInSeconds ∨
    e = .updateAssetStatus deviceId := by
  unfold getBody at h
  by_cases h0 : deviceId = ""
  · rw [if_pos h0] at h
    exact absurd h (by simp)
  · rw [if_neg h0] at h
    cases h1 : env.isWhitelisted deviceId with
    | error _ =>
      simp only [h1, List.mem_singleton] at h
      exact Or.inl h
    | ok b =>
      cases b
      · simp only [h1, List.mem_singleton] at h
        exact Or.inl h
      · cases h2 : env.headObject cfg.s3Bucket (cfg.s3Prefix ++ deviceId ++ cfg.s3Suffix) with
        | error _ =>
          simp only [h1, h2, List.mem_cons, List.not_mem_nil, or_false] at h
          tauto
        | ok mcid =>
          cases mcid with
          | none =>
            simp only [h1, h2, List.mem_cons, List.not_mem_nil, or_false] at h
            tauto
          | some cid =>
            cases h3 : env.updateCertificate (some cid) "ACTIVE" with
            | error _ =>
              simp only [h1, h2, h3, List.mem_cons, List.not_mem_nil, or_false] at h
              rcases h with h | h | h
              · exact Or.inl h
              · exact Or.inr (Or.inl h)
              · exact Or.inr (Or.inr (Or.inl ⟨cid, h⟩))
            | ok _ =>
              cases h4 : env.getSignedUrl "getObject" cfg.s3Bucket
                  (cfg.s3Prefix ++ deviceId ++ cfg.s3Suffix)
                  cfg.presignedUrlExpiresInSeconds with
              | error _ =>
                simp only [h1, h2, h3, h4, List.mem_cons, List.not_mem_nil, or_false] at h
                rcases h with h | h | h | h
                · exact Or.inl h
                · exact Or.inr (Or.inl h)
                · exact Or.inr (Or.inr (Or.inl ⟨cid, h⟩))
                · exact Or.inr (Or.inr (Or.inr (Or.inl h)))
              | ok url =>
                cases h5 : env.updateAssetStatus deviceId with
                | error _ =>
                  simp only [h1, h2, h3, h4, h5, List.mem_cons, List.not_mem_nil,
                    or_false] at h
                  rcases h with h | h | h | h | h
                  · exact Or.inl h
                  · exact Or.inr (Or.inl h)
                  · exact Or.inr (Or.inr (Or.inl ⟨cid, h⟩))
                  · exact Or.inr (Or.inr (Or.inr (Or.inl h)))
                  · exact Or.inr (Or.inr (Or.inr (Or.inr h)))
                | ok _ =>
                  simp only [h1, h2, h3, h4, h5, List.mem_cons, List.not_mem_nil,
                    or_false] at h
                  rcases h with h | h | h | h | h
                  · exact Or.inl h
                  · exact Or.inr (Or.inl h)
                  · exact Or.inr (Or.inr (Or.inl ⟨cid, h⟩))
                  · exact Or.inr (Or.inr (Or.inr (Or.inl h)))
                  · exact Or.inr (Or.inr (Or.inr (Or.inr h)))

theorem getWithCsrBody_effects (cfg : Config) (env : Env) (deviceId csr : String)
    (prev : Option String) (pp : Option ACMPCAParameters) (e : Effect)
    (h : e ∈ (getWithCsrBody cfg env deviceId csr prev pp).1) :
    e = .isWhitelisted deviceId ∨
    (∃ c, e = .describeCACertificate c) ∨ (∃ n, e = .getParameter n) ∨
    (∃ a b c, e = .createCertificate a b c) ∨
    (∃ a b c n ci, e = .issueCertificate a b c n ci) ∨
    (∃ a b, e = .waitForCertificateIssued a b) ∨
    (∃ a b, e = .registerCertificate a b) ∨
    (∃ a b, e = .attachThingPrincipal a b) ∨
    (∃ pr, e = .getEffectivePolicies pr) ∨
    (∃ t pn, e = .attachPolicy t pn) ∨
    e = .updateAssetStatus deviceId := by
  have hobt : ∀ e', e' ∈ (obtainCertificate cfg env csr pp).1 →
      (∃ c, e' = Effect.describeCACertificate c) ∨ (∃ n, e' = Effect.getParameter n) ∨
      (∃ a b c, e' = Effect.createCertificate a b c) ∨
      (∃ a b c n ci, e' = Effect.issueCertificate a b c n ci) ∨
      (∃ a b, e' = Effect.waitForCertificateIssued a b) :=
    fun e' he' => obtainCertificate_effects cfg env csr pp e' he'
  have hatt : ∀ arn pol e', e' ∈ (attachPolicyToCertificate cfg env arn pol prev).1 →
      (∃ pr, e' = Effect.getEffectivePolicies pr) ∨
      ∃ t pn, e' = Effect.attachPolicy t pn :=
    fun arn pol e' he' => attachPolicyToCertificate_effects cfg env arn pol prev e' he'
  unfold getWithCsrBody at h
  by_cases h0 : deviceId = ""
  · rw [if_pos h0] at h
    exact absurd h (by simp)
  · rw [if_neg h0] at h
    by_cases hc : csr = ""
    · rw [if_pos hc] at h
      exact absurd h (by simp)
    · rw [if_neg hc] at h
      cases h1 : env.isWhitelisted deviceId with
      | error _ =>
        simp only [h1, List.mem_singleton] at h
        simp [h]
      | ok b =>
        cases b
        · simp only [h1, List.mem_singleton] at h
          simp [h]
        · rcases h2 : obtainCertificate cfg env csr pp with ⟨tr1, r1⟩
          have hobt1 : ∀ e', e' ∈ tr1 → _ := fun e' he' => hobt e' (by rw [h2]; exact he')
          cases r1 with
          | error _ =>
            simp only [h1, h2, List.mem_cons, List.mem_append, List.mem_singleton,
                List.not_mem_nil, or_false, or_assoc] at h
            rcases h with h | h
            · subst h; simp
            · rcases hobt1 e h with ⟨c, h'⟩ | ⟨n, h'⟩ | ⟨a, b2, c, h'⟩ |
                ⟨a, b2, c, n, ci, h'⟩ | ⟨a, b2, h'⟩ <;> simp [h']
          | ok pr =>
            rcases pr with ⟨caPem, certificate⟩
            cases h3 : env.registerCertificate caPem certificate with
            | error _ =>
              simp only [h1, h2, h3, List.mem_cons, List.mem_append, List.mem_singleton,
                List.not_mem_nil, or_false, or_assoc] at h
              rcases h with h | h | h
              · subst h; simp
              · rcases hobt1 e h with ⟨c, h'⟩ | ⟨n, h'⟩ | ⟨a, b2, c, h'⟩ |
                  ⟨a, b2, c, n, ci, h'⟩ | ⟨a, b2, h'⟩ <;> simp [h']
              · subst h; simp
            | ok certificateArn =>
              cases h4 : env.attachThingPrincipal certificateArn deviceId with
              | error _ =>
                simp only [h1, h2, h3, h4, List.mem_cons, List.mem_append,
                  List.mem_singleton, List.not_mem_nil, or_false, or_assoc] at h
                rcases h with h | h | h | h
                · subst h; simp
                · rcases hobt1 e h with ⟨c, h'⟩ | ⟨n, h'⟩ | ⟨a, b2, c, h'⟩ |
                    ⟨a, b2, c, n, ci, h'⟩ | ⟨a, b2, h'⟩ <;> simp [h']
                · subst h; simp
                · subst h; simp
              | ok _ =>
                rcases h5 : attachPolicyToCertificate cfg env certificateArn
                    cfg.rotatedCertificatePolicy prev with ⟨tr2, r2⟩
                have hatt2 : ∀ e', e' ∈ tr2 → _ := fun e' he' =>
                  hatt certificateArn cfg.rotatedCertificatePolicy e' (by rw [h5]; exact he')
                cases r2 with
                | error _ =>
                  simp only [h1, h2, h3, h4, h5, List.mem_cons, List.mem_append,
                    List.mem_singleton, List.not_mem_nil, or_false, or_assoc] at h
                  rcases h with h | h | h | h | h
                  · subst h; simp
                  · rcases hobt1 e h with ⟨c, h'⟩ | ⟨n, h'⟩ | ⟨a, b2, c, h'⟩ |
                      ⟨a, b2, c, n, ci, h'⟩ | ⟨a, b2, h'⟩ <;> simp [h']
                  · subst h; simp
                  · subst h; simp
                  · rcases hatt2 e h with ⟨pr', h'⟩ | ⟨t, pn, h'⟩ <;> simp [h']
                | ok _ =>
                  cases h6 : env.updateAssetStatus deviceId with
                  | error _ =>
                    simp only [h1, h2, h3, h4, h5, h6, List.mem_cons, List.mem_append,
                      List.mem_singleton, List.not_mem_nil, or_false, or_assoc] at h
                    rcases h with h | h | h | h | h | h
                    · subst h; simp
                    · rcases hobt1 e h with ⟨c, h'⟩ | ⟨n, h'⟩ | ⟨a, b2, c, h'⟩ |
                        ⟨a, b2, c, n, ci, h'⟩ | ⟨a, b2, h'⟩ <;> simp [h']
                    · subst h; simp
                    · subst h; simp
                    · rcases hatt2 e h with ⟨pr', h'⟩ | ⟨t, pn, h'⟩ <;> simp [h']
                    · subst h; simp
                  | ok _ =>
                    simp only [h1, h2, h3, h4, h5, h6, List.mem_cons, List.mem_append,
                      List.mem_singleton, List.not_mem_nil, or_false, or_assoc] at h
                    rcases h with h | h | h | h | h | h
                    · subst h; simp
                    · rcases hobt1 e h with ⟨c, h'⟩ | ⟨n, h'⟩ | ⟨a, b2, c, h'⟩ |
                        ⟨a, b2, c, n, ci, h'⟩ | ⟨a, b2, h'⟩ <;> simp [h']
                    · subst h; simp
                    · subst h; simp
                    · rcases hatt2 e h with ⟨pr', h'⟩ | ⟨t, pn, h'⟩ <;> simp [h']
                    · subst h; simp

theorem ackBody_effects (cfg : Config) (env : Env) (deviceId certId : String)
    (prev : Option String) (e : Effect)
    (h : e ∈ (ackBody cfg env deviceId certId prev).1) :
    e = .isWhitelisted deviceId ∨
    e = .removeThingFromThingGroup deviceId cfg.thingGroupName ∨
    e = .listThingPrincipals deviceId ∨
    (∃ p, e = .detachThingPrincipal deviceId p) ∨
    (∃ p, e = .listPrincipalThings p) ∨
    (∃ t, e = .listAttachedPolicies t) ∨
    (∃ t pn, e = .detachPolicy t pn) ∨
    (∃ c, e = .updateCertificate c "INACTIVE") ∨
    (∃ c, e = .deleteCertificate c) := by
  unfold ackBody at h
  cases h1 : env.isWhitelisted deviceId with
  | error _ =>
    simp only [h1, List.mem_singleton] at h
    exact Or.inl h
  | ok b =>
    cases b
    · simp only [h1, List.mem_singleton] at h
      exact Or.inl h
    · cases h2 : env.removeThingFromThingGroup deviceId cfg.thingGroupName with
      | error _ =>
        simp only [h1, h2, List.mem_cons, List.not_mem_nil, or_false] at h
        tauto
      | ok _ =>
        by_cases h3 : cfg.deletePreviousCertificate
        · have hclean : ∀ e', e' ∈ (removePreviousCertificate cfg env deviceId certId prev).1 →
              e' = Effect.listThingPrincipals deviceId ∨
              (∃ p, e' = Effect.detachThingPrincipal deviceId p) ∨
              (∃ p, e' = Effect.listPrincipalThings p) ∨
              (∃ t, e' = Effect.listAttachedPolicies t) ∨
              (∃ t pn, e' = Effect.detachPolicy t pn) ∨
              (∃ c, e' = Effect.updateCertificate c "INACTIVE") ∨
              (∃ c, e' = Effect.deleteCertificate c) := by
            intro e' he'
            rcases removePreviousCertificate_effects cfg env deviceId certId prev e' he' with
              h' | ⟨ps, p', _, _, _, hpe⟩
            · exact Or.inl h'
            · rcases hpe with h' | h' | ⟨_, h' | ⟨pn, h'⟩ | h' | h'⟩
              · exact Or.inr (Or.inl ⟨p', h'⟩)
              · exact Or.inr (Or.inr (Or.inl ⟨p', h'⟩))
              · exact Or.inr (Or.inr (Or.inr (Or.inl ⟨_, h'⟩)))
              · exact Or.inr (Or.inr (Or.inr (Or.inr (Or.inl ⟨_, pn, h'⟩))))
              · exact Or.inr (Or.inr (Or.inr (Or.inr (Or.inr (Or.inl ⟨_, h'⟩)))))
              · exact Or.inr (Or.inr (Or.inr (Or.inr (Or.inr (Or.inr ⟨_, h'⟩)))))
          rcases h4 : removePreviousCertificate cfg env deviceId certId prev with ⟨tr, r⟩
          have hclean1 : ∀ e', e' ∈ tr → _ := fun e' he' => hclean e' (by rw [h4]; exact he')
          cases r with
          | error _ =>
            simp only [h1, h2, h3, if_true, h4, List.mem_cons] at h
            rcases h with h | h | h
            · exact Or.inl h
            · exact Or.inr (Or.inl h)
            · exact Or.inr (Or.inr (hclean1 e h))
          | ok _ =>
            simp only [h1, h2, h3, if_true, h4, List.mem_cons] at h
            rcases h with h | h | h
            · exact Or.inl h
            · exact Or.inr (Or.inl h)
            · exact Or.inr (Or.inr (hclean1 e h))
        · simp only [h1, h2, h3, Bool.false_eq_true, if_false, List.mem_cons,
            List.not_mem_nil, or_false] at h
          tauto

theorem getBody_no_publish (cfg : Config) (env : Env) (deviceId : String) :
    publishCalls (getBody cfg env deviceId).1 = [] := by
  unfold publishCalls
  rw [List.filterMap_eq_nil_iff]
  intro e he
  rcases getBody_effects cfg env deviceId e he with h | h | ⟨cid, h⟩ | h | h <;>
    subst h <;> rfl

theorem getWithCsrBody_no_publish (cfg : Config) (env : Env) (deviceId csr : String)
    (prev : Option String) (pp : Option ACMPCAParameters) :
    publishCalls (getWithCsrBody cfg env deviceId csr prev pp).1 = [] := by
  unfold publishCalls
  rw [List.filterMap_eq_nil_iff]
  intro e he
  rcases getWithCsrBody_effects cfg env deviceId csr prev pp e he with
    h | ⟨c, h⟩ | ⟨n, h⟩ | ⟨a, b, c, h⟩ | ⟨a, b, c, n, ci, h⟩ | ⟨a, b, h⟩ | ⟨a, b, h⟩ |
    ⟨a, b, h⟩ | ⟨pr, h⟩ | ⟨t, pn, h⟩ | h <;> subst h <;> rfl

theorem ackBody_no_publish (cfg : Config) (env : Env) (deviceId certId : String)
    (prev : Option String) :
    publishCalls (ackBody cfg env deviceId certId prev).1 = [] := by
  unfold publishCalls
  rw [List.filterMap_eq_nil_iff]
  intro e he
  rcases ackBody_effects cfg env deviceId certId prev e he with
    h | h | h | ⟨p, h⟩ | ⟨p, h⟩ | ⟨t, h⟩ | ⟨t, pn, h⟩ | ⟨c, h⟩ | ⟨c, h⟩ <;> subst h <;> rfl

/-! ## Claim theorems: response publication -/

/-- **C5 (amended)**: provided every publish call succeeds and, for `ack`,
the arguments pass validation, each public operation publishes exactly one
outcome: on success one message on the success topic; on failure one
message on the failure topic whose `message` field carries the error that
is then re-raised to the caller. -/
theorem exactly_one_outcome_published (cfg : Config) (env : Env)
    (deviceId csr certId : String) (prev : Option String) (pp : Option ACMPCAParameters)
    (hdev : deviceId ≠ "") (hcert : certId ≠ "")
    (hpub : ∀ t r, env.publish t r = .ok ()) :
    (((get cfg env deviceId).2 = .ok () →
        ∃ r, publishCalls (get cfg env deviceId).1 =
          [(jsReplace cfg.mqttGetSuccessTopic "{thingName}" deviceId, r)]) ∧
     (∀ e, (get cfg env deviceId).2 = .error e →
        ∃ r, publishCalls (get cfg env deviceId).1 =
            [(jsReplace cfg.mqttGetFailureTopic "{thingName}" deviceId, r)] ∧
          r.message = some e)) ∧
    (((getWithCsr cfg env deviceId csr prev pp).2 = .ok () →
        ∃ r, publishCalls (getWithCsr cfg env deviceId csr prev pp).1 =
          [(jsReplace cfg.mqttGetSuccessTopic "{thingName}" deviceId, r)]) ∧
     (∀ e, (getWithCsr cfg env deviceId csr prev pp).2 = .error e →
        ∃ r, publishCalls (getWithCsr cfg env deviceId csr prev pp).1 =
            [(jsReplace cfg.mqttGetFailureTopic "{thingName}" deviceId, r)] ∧
          r.message = some e)) ∧
    (((ack cfg env deviceId certId prev).2 = .ok () →
        ∃ r, publishCalls (ack cfg env deviceId certId prev).1 =
          [(jsReplace cfg.mqttAckSuccessTopic "{thingName}" deviceId, r)]) ∧
     (∀ e, (ack cfg env deviceId certId prev).2 = .error e →
        ∃ r, publishCalls (ack cfg env deviceId certId prev).1 =
            [(jsReplace cfg.mqttAckFailureTopic "{thingName}" deviceId, r)] ∧
          r.message = some e)) := by
  have hack : ack cfg env deviceId certId prev =
      runOp cfg env cfg.mqttAckSuccessTopic cfg.mqttAckFailureTopic deviceId
        (ackBody cfg env deviceId certId prev) := by
    unfold ack
    rw [if_neg hdev, if_neg hcert]
  refine ⟨?_, ?_, ?_⟩
  · exact runOp_single_publish cfg env _ _ _ _ hpub (getBody_no_publish cfg env deviceId)
  · exact runOp_single_publish cfg env _ _ _ _ hpub
      (getWithCsrBody_no_publish cfg env deviceId csr prev pp)
  · rw [hack]
    exact runOp_single_publish cfg env _ _ _ _ hpub
      (ackBody_no_publish cfg env deviceId certId prev)

/-- **C7**: in `activate` (`get`), a staged lookup whose metadata lacks
the certificate id raises `MISSING_CERTIFICATE_ID` (and so, through
`getCertificateId`'s catch guard, does a lookup error whose own message
is `MISSING_CERTIFICATE_ID` — the catch re-raises it), any other lookup
error raises `CERTIFICATE_NOT_FOUND`, a failing activation raises
`UNABLE_TO_ACTIVATE_CERTIFICATE`, and a failing signed-URL computation
raises `UNABLE_TO_PRESIGN_URL` — in each case the only publish is the
failure publish carrying that code, so the failure occurs before the
success publish step. -/
theorem get_failure_codes (cfg : Config) (env : Env) (deviceId : String)
    (hdev : deviceId ≠ "")
    (hw : env.isWhitelisted deviceId = .ok true)
    (hpub : ∀ t r, env.publish t r = .ok ()) :
    (env.headObject cfg.s3Bucket (cfg.s3Prefix ++ deviceId ++ cfg.s3Suffix) = .ok none →
       (get cfg env deviceId).2 = .error "MISSING_CERTIFICATE_ID" ∧
       publishCalls (get cfg env deviceId).1 =
         [(jsReplace cfg.mqttGetFailureTopic "{thingName}" deviceId,
           { message := some "MISSING_CERTIFICATE_ID" })]) ∧
    (env.headObject cfg.s3Bucket (cfg.s3Prefix ++ deviceId ++ cfg.s3Suffix) =
        .error "MISSING_CERTIFICATE_ID" →
       (get cfg env deviceId).2 = .error "MISSING_CERTIFICATE_ID" ∧
       publishCalls (get cfg env deviceId).1 =
         [(jsReplace cfg.mqttGetFailureTopic "{thingName}" deviceId,
           { message := some "MISSING_CERTIFICATE_ID" })]) ∧
    (∀ m, env.headObject cfg.s3Bucket (cfg.s3Prefix ++ deviceId ++ cfg.s3Suffix) =
        .error m → m ≠ "MISSING_CERTIFICATE_ID" →
       (get cfg env deviceId).2 = .error "CERTIFICATE_NOT_FOUND" ∧
       publishCalls (get cfg env deviceId).1 =
         [(jsReplace cfg.mqttGetFailureTopic "{thingName}" deviceId,
           { message := some "CERTIFICATE_NOT_FOUND" })]) ∧
    (∀ cid m, env.headObject cfg.s3Bucket (cfg.s3Prefix ++ deviceId ++ cfg.s3Suffix) =
        .ok (some cid) →
       env.updateCertificate (some cid) "ACTIVE" = .error m →
       (get cfg env deviceId).2 = .error "UNABLE_TO_ACTIVATE_CERTIFICATE" ∧
       publishCalls (get cfg env deviceId).1 =
         [(jsReplace cfg.mqttGetFailureTopic "{thingName}" deviceId,
           { message := some "UNABLE_TO_ACTIVATE_CERTIFICATE" })]) ∧
    (∀ cid m, env.headObject cfg.s3Bucket (cfg.s3Prefix ++ deviceId ++ cfg.s3Suffix) =
        .ok (some cid) →
       env.updateCertificate (some cid) "ACTIVE" = .ok () →
       env.getSignedUrl "getObject" cfg.s3Bucket (cfg.s3Prefix ++ deviceId ++ cfg.s3Suffix)
         cfg.presignedUrlExpiresInSeconds = .error m →
       (get cfg env deviceId).2 = .error "UNABLE_TO_PRESIGN_URL" ∧
       publishCalls (get cfg env deviceId).1 =
         [(jsReplace cfg.mqttGetFailureTopic "{thingName}" deviceId,
           { message := some "UNABLE_TO_PRESIGN_URL" })]) := by
  refine ⟨?_, ?_, ?_, ?_, ?_⟩
  · intro h2
    unfold get runOp getBody finishFail
    rw [if_neg hdev]
    simp [hw, h2, hpub, publishCalls]
  · intro h2
    unfold get runOp getBody finishFail
    rw [if_neg hdev]
    simp [hw, h2, hpub, publishCalls]
  · intro m h2 hm
    unfold get runOp getBody finishFail
    rw [if_neg hdev]
    simp [hw, h2, hm, hpub, publishCalls]
  · intro cid m h2 h3
    unfold get runOp getBody finishFail
    rw [if_neg hdev]
    simp [hw, h2, h3, hpub, publishCalls]
  · intro cid m h2 h3 h4
    unfold get runOp getBody finishFail
    rw [if_neg hdev]
    simp [hw, h2, h3, h4, hpub, publishCalls]

/-! ## Placement of the device-status update -/

theorem runOp_body_sub (cfg : Config) (env : Env) (st ft d : String) (body : OpResult)
    (e : Effect) (h : e ∈ body.1) : e ∈ (runOp cfg env st ft d body).1 := by
  rcases body with ⟨tr, r⟩
  cases r with
  | ok resp =>
    unfold runOp
    cases hp : env.publish (jsReplace st "{thingName}" d) resp with
    | ok _ => simp only [hp, List.mem_append]; exact Or.inl h
    | error _ => simp only [hp, List.mem_append]; exact Or.inl h
  | error pr =>
    rcases pr with ⟨e0, resp⟩
    unfold runOp
    simp only [List.mem_append]
    exact Or.inl h

theorem getBody_ok_has_update (cfg : Config) (env : Env) (deviceId : String)
    (resp : CertificateResponseModel) (h : (getBody cfg env deviceId).2 = .ok resp) :
    Effect.updateAssetStatus deviceId ∈ (getBody cfg env deviceId).1 := by
  unfold getBody at h ⊢
  by_cases h0 : deviceId = ""
  · rw [if_pos h0] at h
    exact absurd h (by simp)
  · rw [if_neg h0] at h ⊢
    cases h1 : env.isWhitelisted deviceId with
    | error _ => simp only [h1] at h; exact absurd h (by simp)
    | ok b =>
      cases b
      · simp only [h1] at h; exact absurd h (by simp)
      · cases h2 : env.headObject cfg.s3Bucket (cfg.s3Prefix ++ deviceId ++ cfg.s3Suffix) with
        | error _ => simp only [h1, h2] at h; exact absurd h (by simp)
        | ok mcid =>
          cases mcid with
          | none => simp only [h1, h2] at h; exact absurd h (by simp)
          | some cid =>
            cases h3 : env.updateCertificate (some cid) "ACTIVE" with
            | error _ => simp only [h1, h2, h3] at h; exact absurd h (by simp)
            | ok _ =>
              cases h4 : env.getSignedUrl "getObject" cfg.s3Bucket
                  (cfg.s3Prefix ++ deviceId ++ cfg.s3Suffix)
                  cfg.presignedUrlExpiresInSeconds with
              | error _ => simp only [h1, h2, h3, h4] at h; exact absurd h (by simp)
              | ok url =>
                cases h5 : env.updateAssetStatus deviceId with
                | error _ => simp only [h1, h2, h3, h4, h5] at h; exact absurd h (by simp)
                | ok _ => simp [h1, h2, h3, h4, h5]

theorem getBody_update_mem_cases (cfg : Config) (env : Env) (deviceId : String)
    (hm : Effect.updateAssetStatus deviceId ∈ (getBody cfg env deviceId).1) :
    (∃ resp, (getBody cfg env deviceId).2 = .ok resp) ∨
    (∃ e0 resp0, (getBody cfg env deviceId).2 = .error (e0, resp0) ∧
      env.updateAssetStatus deviceId = .error e0) := by
  unfold getBody at hm ⊢
  by_cases h0 : deviceId = ""
  · rw [if_pos h0] at hm
    exact absurd hm (by simp)
  · rw [if_neg h0] at hm ⊢
    cases h1 : env.isWhitelisted deviceId with
    | error _ => simp only [h1] at hm; simp at hm
    | ok b =>
      cases b
      · simp only [h1] at hm; simp at hm
      · cases h2 : env.headObject cfg.s3Bucket (cfg.s3Prefix ++ deviceId ++ cfg.s3Suffix) with
        | error _ => simp only [h1, h2] at hm; simp at hm
        | ok mcid =>
          cases mcid with
          | none => simp only [h1, h2] at hm; simp at hm
          | some cid =>
            cases h3 : env.updateCertificate (some cid) "ACTIVE" with
            | error _ => simp only [h1, h2, h3] at hm; simp at hm
            | ok _ =>
              cases h4 : env.getSignedUrl "getObject" cfg.s3Bucket
                  (cfg.s3Prefix ++ deviceId ++ cfg.s3Suffix)
                  cfg.presignedUrlExpiresInSeconds with
              | error _ => simp only [h1, h2, h3, h4] at hm; simp at hm
              | ok url =>
                cases h5 : env.updateAssetStatus deviceId with
                | error m =>
                  simp only [h1, h2, h3, h4, h5]
                  exact Or.inr ⟨m, {}, rfl, rfl⟩
                | ok _ =>
                  simp only [h1, h2, h3, h4, h5]
                  exact Or.inl ⟨{ location := some url }, rfl⟩

theorem getWithCsrBody_ok_has_update (cfg : Config) (env : Env) (deviceId csr : String)
    (prev : Option String) (pp : Option ACMPCAParameters)
    (resp : CertificateResponseModel)
    (h : (getWithCsrBody cfg env deviceId csr prev pp).2 = .ok resp) :
    Effect.updateAssetStatus deviceId ∈ (getWithCsrBody cfg env deviceId csr prev pp).1 := by
  unfold getWithCsrBody at h ⊢
  by_cases h0 : deviceId = ""
  · rw [if_pos h0] at h
    exact absurd h (by simp)
  · rw [if_neg h0] at h ⊢
    by_cases hc : csr = ""
    · rw [if_pos hc] at h
      exact absurd h (by simp)
    · rw [if_neg hc] at h ⊢
      cases h1 : env.isWhitelisted deviceId with
      | error _ => simp only [h1] at h; exact absurd h (by simp)
      | ok b =>
        cases b
        · simp only [h1] at h; exact absurd h (by simp)
        · rcases h2 : obtainCertificate cfg env csr pp with ⟨tr1, r1⟩
          cases r1 with
          | error _ => simp only [h1, h2] at h; exact absurd h (by simp)
          | ok pr =>
            rcases pr with ⟨caPem, certificate⟩
            cases h3 : env.registerCertificate caPem certificate with
            | error _ => simp only [h1, h2, h3] at h; exact absurd h (by simp)
            | ok certificateArn =>
              cases h4 : env.attachThingPrincipal certificateArn deviceId with
              | error _ => simp only [h1, h2, h3, h4] at h; exact absurd h (by simp)
              | ok _ =>
                rcases h5 : attachPolicyToCertificate cfg env certificateArn
                    cfg.rotatedCertificatePolicy prev with ⟨tr2, r2⟩
                cases r2 with
                | error _ => simp only [h1, h2, h3, h4, h5] at h; exact absurd h (by simp)
                | ok _ =>
                  cases h6 : env.updateAssetStatus deviceId with
                  | error _ => simp only [h1, h2, h3, h4, h5, h6] at h; exact absurd h (by simp)
                  | ok _ => simp [h1, h2, h3, h4, h5, h6]

theorem getWithCsrBody_update_mem_cases (cfg : Config) (env : Env) (deviceId csr : String)
    (prev : Option String) (pp : Option ACMPCAParameters)
    (hm : Effect.updateAssetStatus deviceId ∈ (getWithCsrBody cfg env deviceId csr prev pp).1) :
    (∃ resp, (getWithCsrBody cfg env deviceId csr prev pp).2 = .ok resp) ∨
    (∃ e0 resp0, (getWithCsrBody cfg env deviceId csr prev pp).2 = .error (e0, resp0) ∧
      env.updateAssetStatus deviceId = .error e0) := by
  have hobt : ∀ e', e' ∈ (obtainCertificate cfg env csr pp).1 →
      e' ≠ Effect.updateAssetStatus deviceId := by
    intro e' he'
    rcases obtainCertificate_effects cfg env csr pp e' he' with
      ⟨c, h'⟩ | ⟨n, h'⟩ | ⟨a, b, c, h'⟩ | ⟨a, b, c, n, ci, h'⟩ | ⟨a, b, h'⟩ <;>
      subst h' <;> simp
  have hatt : ∀ arn pol e', e' ∈ (attachPolicyToCertificate cfg env arn pol prev).1 →
      e' ≠ Effect.updateAssetStatus deviceId := by
    intro arn pol e' he'
    rcases attachPolicyToCertificate_effects cfg env arn pol prev e' he' with
      ⟨pr, h'⟩ | ⟨t, pn, h'⟩ <;> subst h' <;> simp
  unfold getWithCsrBody at hm ⊢
  by_cases h0 : deviceId = ""
  · rw [if_pos h0] at hm
    exact absurd hm (by simp)
  · rw [if_neg h0] at hm ⊢
    by_cases hc : csr = ""
    · rw [if_pos hc] at hm
      exact absurd hm (by simp)
    · rw [if_neg hc] at hm ⊢
      cases h1 : env.isWhitelisted deviceId with
      | error _ => simp only [h1] at hm; simp at hm
      | ok b =>
        cases b
        · simp only [h1] at hm; simp at hm
        · rcases h2 : obtainCertificate cfg env csr pp with ⟨tr1, r1⟩
          have hobt1 : ∀ e', e' ∈ tr1 → e' ≠ Effect.updateAssetStatus deviceId :=
            fun e' he' => hobt e' (by rw [h2]; exact he')
          cases r1 with
          | error _ =>
            simp only [h1, h2, List.mem_cons, List.mem_append, List.mem_singleton,
              List.not_mem_nil, or_false, or_assoc] at hm
            rcases hm with hm | hm
            · exact absurd hm.symm (by simp)
            · exact absurd rfl (hobt1 _ hm)
          | ok pr =>
            rcases pr with ⟨caPem, certificate⟩
            cases h3 : env.registerCertificate caPem certificate with
            | error _ =>
              simp only [h1, h2, h3, List.mem_cons, List.mem_append, List.mem_singleton,
                List.not_mem_nil, or_false, or_assoc] at hm
              rcases hm with hm | hm | hm
              · exact absurd hm.symm (by simp)
              · exact absurd rfl (hobt1 _ hm)
              · exact absurd hm.symm (by simp)
            | ok certificateArn =>
              cases h4 : env.attachThingPrincipal certificateArn deviceId with
              | error _ =>
                simp only [h1, h2, h3, h4, List.mem_cons, List.mem_append,
                  List.mem_singleton, List.not_mem_nil, or_false, or_assoc] at hm
                rcases hm with hm | hm | hm | hm
                · exact absurd hm.symm (by simp)
                · exact absurd rfl (hobt1 _ hm)
                · exact absurd hm.symm (by simp)
                · exact absurd hm.symm (by simp)
              | ok _ =>
                rcases h5 : attachPolicyToCertificate cfg env certificateArn
                    cfg.rotatedCertificatePolicy prev with ⟨tr2, r2⟩
                have hatt2 : ∀ e', e' ∈ tr2 → e' ≠ Effect.updateAssetStatus deviceId :=
                  fun e' he' => hatt certificateArn cfg.rotatedCertificatePolicy e'
                    (by rw [h5]; exact he')
                cases r2 with
                | error _ =>
                  simp only [h1, h2, h3, h4, h5, List.mem_cons, List.mem_append,
                    List.mem_singleton, List.not_mem_nil, or_false, or_assoc] at hm
                  rcases hm with hm | hm | hm | hm | hm
                  · exact absurd hm.symm (by simp)
                  · exact absurd rfl (hobt1 _ hm)
                  · exact absurd hm.symm (by simp)
                  · exact absurd hm.symm (by simp)
                  · exact absurd rfl (hatt2 _ hm)
                | ok _ =>
                  cases h6 : env.updateAssetStatus deviceId with
                  | error m =>
                    simp only [h1, h2, h3, h4, h5, h6]
                    exact Or.inr ⟨m, {}, rfl, rfl⟩
                  | ok _ =>
                    simp only [h1, h2, h3, h4, h5, h6]
                    exact Or.inl ⟨_, rfl⟩

/-- **C6 (amended)**: `updateDeviceStatus` (`updateAssetStatus`) is called
on every successful invocation of `get` and `getWithCsr`; it is never
called by `ack`; and on a failed invocation of `get`/`getWithCsr` it has
been called only when the failure is the update call itself or a later
publish step (`UNABLE_TO_PUBLISH_RESPONSE`). -/
theorem update_asset_status_calls (cfg : Config) (env : Env)
    (deviceId csr certId : String) (prev : Option String) (pp : Option ACMPCAParameters) :
    ((get cfg env deviceId).2 = .ok () →
       Effect.updateAssetStatus deviceId ∈ (get cfg env deviceId).1) ∧
    ((getWithCsr cfg env deviceId csr prev pp).2 = .ok () →
       Effect.updateAssetStatus deviceId ∈ (getWithCsr cfg env deviceId csr prev pp).1) ∧
    (∀ d, Effect.updateAssetStatus d ∉ (ack cfg env deviceId certId prev).1) ∧
    (∀ e, (get cfg env deviceId).2 = .error e →
       Effect.updateAssetStatus deviceId ∈ (get cfg env deviceId).1 →
       e = "UNABLE_TO_PUBLISH_RESPONSE" ∨ env.updateAssetStatus deviceId = .error e) ∧
    (∀ e, (getWithCsr cfg env deviceId csr prev pp).2 = .error e →
       Effect.updateAssetStatus deviceId ∈ (getWithCsr cfg env deviceId csr prev pp).1 →
       e = "UNABLE_TO_PUBLISH_RESPONSE" ∨ env.updateAssetStatus deviceId = .error e) := by
  refine ⟨?_, ?_, ?_, ?_, ?_⟩
  · intro hok
    rcases runOp_ok_body cfg env _ _ _ _ hok with ⟨tr, resp, hbody⟩
    have hupd := getBody_ok_has_update cfg env deviceId resp (by rw [hbody])
    exact runOp_body_sub cfg env _ _ _ _ _ hupd
  · intro hok
    rcases runOp_ok_body cfg env _ _ _ _ hok with ⟨tr, resp, hbody⟩
    have hupd := getWithCsrBody_ok_has_update cfg env deviceId csr prev pp resp
      (by rw [hbody])
    exact runOp_body_sub cfg env _ _ _ _ _ hupd
  · intro d hm
    unfold ack at hm
    by_cases h0 : deviceId = ""
    · rw [if_pos h0] at hm
      exact absurd hm (by simp)
    · rw [if_neg h0] at hm
      by_cases h1 : certId = ""
      · rw [if_pos h1] at hm
        exact absurd hm (by simp)
      · rw [if_neg h1] at hm
        rcases runOp_mem_body cfg env _ _ _ _ _ hm with hin | hp
        · rcases ackBody_effects cfg env deviceId certId prev _ hin with
            h | h | h | ⟨p, h⟩ | ⟨p, h⟩ | ⟨t, h⟩ | ⟨t, pn, h⟩ | ⟨c, h⟩ | ⟨c, h⟩ <;>
            exact absurd h (by simp)
        · exact absurd hp (by simp [Effect.isPublish])
  · intro e herr hm
    rcases runOp_mem_body cfg env _ _ _ _ _ hm with hin | hp
    · rcases runOp_error_cases cfg env _ _ _ _ e herr with
        ⟨tr, e0, resp0, hbody, hcase⟩ | ⟨tr, resp, hbody, hun⟩
      · rcases getBody_update_mem_cases cfg env deviceId (by rw [hbody] at hin ⊢; exact hin)
          with ⟨resp, hok⟩ | ⟨e1, resp1, herr1, hupd⟩
        · rw [hbody] at hok
          exact absurd hok (by simp)
        · rw [hbody] at herr1
          have he1 : e1 = e0 := by
            injection herr1 with h'
            exact (congrArg Prod.fst h').symm
          subst he1
          rcases hcase with hcase | hcase
          · exact Or.inr (hcase ▸ hupd)
          · exact Or.inl hcase
      · exact Or.inl hun
    · exact absurd hp (by simp [Effect.isPublish])
  · intro e herr hm
    rcases runOp_mem_body cfg env _ _ _ _ _ hm with hin | hp
    · rcases runOp_error_cases cfg env _ _ _ _ e herr with
        ⟨tr, e0, resp0, hbody, hcase⟩ | ⟨tr, resp, hbody, hun⟩
      · rcases getWithCsrBody_update_mem_cases cfg env deviceId csr prev pp
          (by rw [hbody] at hin ⊢; exact hin)
          with ⟨resp, hok⟩ | ⟨e1, resp1, herr1, hupd⟩
        · rw [hbody] at hok
          exact absurd hok (by simp)
        · rw [hbody] at herr1
          have he1 : e1 = e0 := by
            injection herr1 with h'
            exact (congrArg Prod.fst h').symm
          subst he1
          rcases hcase with hcase | hcase
          · exact Or.inr (hcase ▸ hupd)
          · exact Or.inl hcase
      · exact Or.inl hun
    · exact absurd hp (by simp [Effect.isPublish])

/-! ## Concrete environments for witnesses and counterexamples -/

/-- Cleanup environment: one previous principal and the current one. -/
def envW1 : Env :=
  { okEnv with listThingPrincipals := fun _ => .ok ["r:a:cert/old", "r:a:cert/cur"] }

/-- Cleanup environment with a single orphaned previous principal. -/
def envW2 : Env :=
  { okEnv with listThingPrincipals := fun _ => .ok ["r:a:cert/old"] }

/-- Environment whose whitelist check returns `false`. -/
def envW3 : Env := { okEnv with isWhitelisted := fun _ => .ok false }

/-- Environment whose staged-certificate metadata is missing. -/
def envW7 : Env := { okEnv with headObject := fun _ _ => .ok none }

/-- Environment whose staged-certificate lookup fails outright. -/
def envW7b : Env := { okEnv with headObject := fun _ _ => .error "boom" }

/-- Environment whose response-channel publish always fails; the whitelist
check also reports the device as not whitelisted. -/
def envPubFail : Env :=
  { okEnv with publish := fun _ _ => .error "boom",
               isWhitelisted := fun _ => .ok false }

/-- Environment whose response-channel publish always fails. -/
def envW10 : Env := { okEnv with publish := fun _ _ => .error "boom" }

/-! ## Witnesses and counterexamples -/

theorem cleanup_preserves_current_certificate_witness :
    Effect.detachThingPrincipal "d" "r:a:cert/cur" ∉
      (removePreviousCertificate cfgW envW1 "d" "cur" none).1 ∧
    Effect.deleteCertificate (some "cur") ∉
      (removePreviousCertificate cfgW envW1 "d" "cur" none).1 :=
  ⟨(cleanup_preserves_current_certificate cfgW envW1 "d" "cur" none).1
      "r:a:cert/cur" (by decide),
   (cleanup_preserves_current_certificate cfgW envW1 "d" "cur" none).2.2.1⟩

theorem cleanup_unbind_before_conditional_delete_witness :
    ∃ pre post things, envW2.listPrincipalThings "r:a:cert/old" = .ok things ∧
      ((things ≠ [] ∧
          (removePreviousCertificate cfgW envW2 "d" "cur" none).1 =
            pre ++ [.detachThingPrincipal "d" "r:a:cert/old",
                    .listPrincipalThings "r:a:cert/old"] ++ post) ∨
       (things = [] ∧ ∃ pols,
          envW2.listAttachedPolicies (cleanupTarget cfgW "r:a:cert/old") = .ok pols ∧
          (removePreviousCertificate cfgW envW2 "d" "cur" none).1 =
            pre ++ (.detachThingPrincipal "d" "r:a:cert/old" ::
              .listPrincipalThings "r:a:cert/old" ::
              .listAttachedPolicies (cleanupTarget cfgW "r:a:cert/old") ::
              pols.map (fun pn => Effect.detachPolicy (cleanupTarget cfgW "r:a:cert/old") pn) ++
              [.updateCertificate (cleanupCid "r:a:cert/old") "INACTIVE",
               .deleteCertificate (cleanupCid "r:a:cert/old")]) ++ post)) :=
  cleanup_unbind_before_conditional_delete cfgW envW2 "d" "cur" none
    ["r:a:cert/old"] "r:a:cert/old" rfl rfl (by decide) (by decide)
    (fun pc h => Option.noConfusion h)

theorem whitelist_failure_short_circuits_witness :
    (get cfgW envW3 "d").1.all (fun e => !e.isMutation) = true ∧
    publishCalls (ack cfgW envW3 "d" "c" none).1 =
      [(jsReplace cfgW.mqttAckFailureTopic "{thingName}" "d",
        { message := some "DEVICE_NOT_WHITELISTED" })] :=
  ⟨(whitelist_failure_short_circuits cfgW envW3 "d" "csr" "c" none none
      (by decide) (by decide) (by decide) rfl).1.1,
   (whitelist_failure_short_circuits cfgW envW3 "d" "csr" "c" none none
      (by decide) (by decide) (by decide) rfl).2.2.2⟩

theorem policy_attachment_inherit_or_default_witness :
    attachCalls (attachPolicyToCertificate cfgW okEnv "arn" "dpol" (some "prevc")).1 =
      [("arn", "polA"), ("arn", "polB")] ∧
    attachCalls (attachPolicyToCertificate cfgW okEnv "arn" "dpol" none).1 =
      [("arn", "dpol")] :=
  ⟨(policy_attachment_inherit_or_default cfgW okEnv "arn" "dpol" (some "prevc")).1
      "prevc" ["polA", "polB"] rfl (by decide) rfl rfl |>.1 rfl,
   (policy_attachment_inherit_or_default cfgW okEnv "arn" "dpol" none).2 (Or.inl rfl)⟩

theorem exactly_one_outcome_published_witness :
    ∃ r, publishCalls (ack cfgW okEnv "d" "c" none).1 =
      [(jsReplace cfgW.mqttAckSuccessTopic "{thingName}" "d", r)] :=
  (exactly_one_outcome_published cfgW okEnv "d" "csr" "c" none none
    (by decide) (by decide) (fun _ _ => rfl)).2.2.1 rfl

/-- The claim as stated is false: with a failing response channel the
operation publishes zero outcomes (its single publish attempt fails) and
raises `UNABLE_TO_PUBLISH_RESPONSE` instead of re-raising the original
`DEVICE_NOT_WHITELISTED`. -/
theorem exactly_one_outcome_published_counterexample :
    publishCalls (get cfgW envPubFail "d").1 =
      [("gf/d", { message := some "DEVICE_NOT_WHITELISTED" })] ∧
    envPubFail.publish "gf/d" { message := some "DEVICE_NOT_WHITELISTED" } =
      .error "boom" ∧
    (get cfgW envPubFail "d").2 = .error "UNABLE_TO_PUBLISH_RESPONSE" :=
  ⟨rfl, rfl, rfl⟩

theorem update_asset_status_calls_witness :
    Effect.updateAssetStatus "d" ∈ (get cfgW okEnv "d").1 :=
  (update_asset_status_calls cfgW okEnv "d" "csr" "c" none none).1 rfl

/-- The claim as stated is false: a fully successful `ack` invocation
never calls `updateAssetStatus`. -/
theorem update_asset_status_calls_counterexample :
    (ack cfgW okEnv "d" "c" none).2 = .ok () ∧
    Effect.updateAssetStatus "d" ∉ (ack cfgW okEnv "d" "c" none).1 :=
  ⟨rfl, by decide⟩

theorem get_failure_codes_witness :
    ((get cfgW envW7 "d").2 = .error "MISSING_CERTIFICATE_ID" ∧
      publishCalls (get cfgW envW7 "d").1 =
        [(jsReplace cfgW.mqttGetFailureTopic "{thingName}" "d",
          { message := some "MISSING_CERTIFICATE_ID" })]) ∧
    ((get cfgW envW7b "d").2 = .error "CERTIFICATE_NOT_FOUND" ∧
      publishCalls (get cfgW envW7b "d").1 =
        [(jsReplace cfgW.mqttGetFailureTopic "{thingName}" "d",
          { message := some "CERTIFICATE_NOT_FOUND" })]) :=
  ⟨(get_failure_codes cfgW envW7 "d" (by decide) rfl (fun _ _ => rfl)).1 rfl,
   (get_failure_codes cfgW envW7b "d" (by decide) rfl (fun _ _ => rfl)).2.2.1
     "boom" rfl (by decide)⟩

theorem acm_certificate_is_leaf_newline_chain_witness :
    (getACMCertificate cfgW okEnv "csr" "pca" none).2 = .ok ("LEAF" ++ "\n" ++ "CHAIN") :=
  acm_certificate_is_leaf_newline_chain cfgW okEnv "csr" "pca" none "issuedArn"
    "LEAF" "CHAIN" rfl rfl

theorem cleanup_exemption_is_substring_containment_witness :
    Effect.detachThingPrincipal "d" "arn:aws:iot:r:a:cert/abc123" ∉
      (removePreviousCertificate cfgW envC9 "d" "abc1" none).1 :=
  (cleanup_exemption_is_substring_containment cfgW envC9 "d" "abc1" none).1
    "arn:aws:iot:r:a:cert/abc123" (by decide)

theorem publish_failure_replaces_error_witness :
    (get cfgW envW10 "d").2 = .error "UNABLE_TO_PUBLISH_RESPONSE" ∧
    (ack cfgW envW10 "d" "c" none).2 = .error "UNABLE_TO_PUBLISH_RESPONSE" :=
  ⟨(publish_failure_replaces_error cfgW envW10 "d" "csr" "c" none none
      (by decide) (by decide) (fun t r => ⟨"boom", rfl⟩)).1,
   (publish_failure_replaces_error cfgW envW10 "d" "csr" "c" none none
      (by decide) (by decide) (fun t r => ⟨"boom", rfl⟩)).2.2⟩

end CertVendor
